import Mathlib

/-!
snake-plus-plus: the game-state engine, the placement engine and the
configuration provider.

A shallow embedding of `src/game.cpp` (`Game::Game`, `Game::Update`,
`Game::PlaceGridItem`, `Game::GenerateGridPoints`, `Game::GenerateGridPoint`,
`operator<`) and of `src/config.cpp` (`Config::ReadConfig`, `Config::Config`).

Modelling decisions.

* `std::set<SDL_Point>` is a `Finset SDL_Point`: membership under the
  comparison `operator<` coincides with equality of coordinates
  (`SDL_Point.equiv_iff_eq`).
* The random engine together with the two distributions `random_w`,
  `random_h` is the list of coordinate samples it will still deliver; a draw
  takes the head of the list.  A search that uses up the list has not
  terminated on that sample sequence and yields `none`.
* The worker threads of one batch round are run one after another on the
  shared engine.
* `snake.h` / `snake.cpp` are not part of the sources at hand.  The public
  data members that `game.cpp` touches are the fields of `Snake`; the member
  functions and the floating-point operations are the fields of `SnakeApi`,
  a parameter of every operation.
* The counters `score`, `slow_downs`, `speed_ups` are C++ `int`s of 32 bits:
  an increment is `wrapInt (n + 1)`, which turns `INT_MAX` into `INT_MIN`.
* The agent's positions and speed are `float`s.  The operations of
  `game.cpp` on them are parameters of `SnakeApi`; `F32` is the IEEE binary32
  format by bit pattern, and `SnakeApi.ieee` fixes the parameters to the
  operations the machine performs.
-/

namespace SnakePP

/-! ## Grid coordinates -/

/-- A grid cell, `SDL_Point` with its two `int` members. -/
structure SDL_Point where
  x : Int
  y : Int
deriving DecidableEq

/-- The comparison `operator<(const SDL_Point&, const SDL_Point&)`. -/
def SDL_Point.lt (pt1 pt2 : SDL_Point) : Bool :=
  if pt1.x ≠ pt2.x then decide (pt1.x < pt2.x)
  else if pt1.y ≠ pt2.y then decide (pt1.y < pt2.y)
  else false

/-- The enumeration `Game::GridItemType`. -/
inductive GridItemType where
  | giObstacle
  | giSlowdown
  | giSpeedup
  | giFood
deriving DecidableEq

/-! ## The agent -/

/-- The data members of `Snake` that `game.cpp` reads or writes; `F` is the
floating-point type of the position and the speed, `priv` the remaining
members. -/
structure Snake (F R : Type) where
  head_x : F
  head_y : F
  speed : F
  alive : Bool
  size : Int
  priv : R
deriving DecidableEq

/-- The member functions of `Snake` called by `game.cpp` and the
floating-point operations applied to its members. -/
structure SnakeApi (F R : Type) where
  /-- The conversion `static_cast<int>`. -/
  toInt : F → Int
  /-- The addition `speed + 0.02`. -/
  addStep : F → F
  /-- The subtraction `speed - 0.02`. -/
  subStep : F → F
  /-- The member function `Snake::Update()`. -/
  Update : Snake F R → Snake F R
  /-- The member function `Snake::GrowBody()`. -/
  GrowBody : Snake F R → Snake F R
  /-- The member function `Snake::SnakeCell(int, int)`. -/
  SnakeCell : Snake F R → Int → Int → Bool

/-! ## The game state -/

/-- The data members of `Game`; `engine` is the sequence of samples that the
random engine delivers through `random_w` and `random_h`. -/
structure Game (F R : Type) where
  snake : Snake F R
  obstacles : Finset SDL_Point
  slowdowns : Finset SDL_Point
  speedups : Finset SDL_Point
  food_points : Finset SDL_Point
  score : Int
  slow_downs : Int
  speed_ups : Int
  engine : List SDL_Point
deriving DecidableEq

variable {F R : Type}

/-- The acceptance test of `Game::GenerateGridPoint` (lines 137-141): the
sample is no snake cell and is found in none of the four item sets. -/
def Game.cellFree (api : SnakeApi F R) (g : Game F R) (x y : Int) : Bool :=
  !api.SnakeCell g.snake x y
    && decide (SDL_Point.mk x y ∉ g.obstacles)
    && decide (SDL_Point.mk x y ∉ g.slowdowns)
    && decide (SDL_Point.mk x y ∉ g.speedups)
    && decide (SDL_Point.mk x y ∉ g.food_points)

/-- The loop `while (true)` of `Game::GenerateGridPoint` over the samples
still to come: the first accepted sample and the samples left after it. -/
def Game.searchPoint (api : SnakeApi F R) (g : Game F R) :
    List SDL_Point → Option (SDL_Point × List SDL_Point)
  | [] => none
  | s :: rest =>
    if g.cellFree api s.x s.y then some (SDL_Point.mk s.x s.y, rest)
    else Game.searchPoint api g rest

/-- The member function `Game::GenerateGridPoint`: the point returned and
the game with its engine advanced. -/
def Game.GenerateGridPoint (api : SnakeApi F R) (g : Game F R) :
    Option (SDL_Point × Game F R) :=
  match g.searchPoint api g.engine with
  | none => none
  | some (p, rest) => some (p, { g with engine := rest })

/-- The value a 32-bit `int` holds after an arithmetic result `n`: `n` itself
when it is in range, else wrapped around modulo `2 ^ 32`, as two's
complement hardware does. -/
def wrapInt (n : Int) : Int := (n + 2 ^ 31) % 2 ^ 32 - 2 ^ 31

/-- The conversion of an `int` to `std::size_t` (64 bits). -/
def toSizeT (n : Int) : Nat := (n % 2 ^ 64).toNat

/-- The `for` loop of `Game::GenerateGridPoints` (lines 118-125) for `k`
workers: each runs `GenerateGridPoint`; the futures are read in launch
order.  The loop counts with an `int i` up to the `std::size_t` bound
`num - pts.size()`; `k` is that bound (a bound above `INT_MAX` would
overflow `i`, which C++ leaves undefined). -/
def Game.launchWorkers (api : SnakeApi F R) :
    Nat → Game F R → Option (List SDL_Point × Game F R)
  | 0, g => some ([], g)
  | k + 1, g =>
    match g.GenerateGridPoint api with
    | none => none
    | some (p, g1) =>
      match Game.launchWorkers api k g1 with
      | none => none
      | some (ps, g2) => some (p :: ps, g2)

/-- The loop on line 126: every future is inserted into `pts`. -/
def insertAll (pts : Finset SDL_Point) : List SDL_Point → Finset SDL_Point
  | [] => pts
  | p :: ps => insertAll (insert p pts) ps

/-- The loop `while (pts.size() < num)` of `Game::GenerateGridPoints`,
unrolled at most `fuel` times.  Both the guard and the bound of the inner
loop convert `num` to `std::size_t`. -/
def Game.generateRounds (api : SnakeApi F R) (num : Int) :
    Nat → Finset SDL_Point → Game F R → Option (Finset SDL_Point × Game F R)
  | 0, _, _ => none
  | fuel + 1, pts, g =>
    if pts.card < toSizeT num then
      match g.launchWorkers api (toSizeT (num - (pts.card : Int))) with
      | none => none
      | some (ps, g1) => Game.generateRounds api num fuel (insertAll pts ps) g1
    else some (pts, g)

/-- The member function `Game::GenerateGridPoints`.  A round that is entered
draws at least one sample, so one more round than there are samples is
enough (`generateRounds_fuel`). -/
def Game.GenerateGridPoints (api : SnakeApi F R) (num : Int) (g : Game F R) :
    Option (Finset SDL_Point × Game F R) :=
  g.generateRounds api num (g.engine.length + 1) ∅

/-- The member function `Game::PlaceGridItem`: erase the old point from the
set of the item kind, then insert a generated point into it. -/
def Game.PlaceGridItem (api : SnakeApi F R) (gridPoint : SDL_Point)
    (itemType : GridItemType) (g : Game F R) : Option (Game F R) :=
  match itemType with
  | .giObstacle =>
    let g1 := { g with obstacles := g.obstacles.erase gridPoint }
    match g1.GenerateGridPoint api with
    | none => none
    | some (p, g2) => some { g2 with obstacles := insert p g2.obstacles }
  | .giSlowdown =>
    let g1 := { g with slowdowns := g.slowdowns.erase gridPoint }
    match g1.GenerateGridPoint api with
    | none => none
    | some (p, g2) => some { g2 with slowdowns := insert p g2.slowdowns }
  | .giSpeedup =>
    let g1 := { g with speedups := g.speedups.erase gridPoint }
    match g1.GenerateGridPoint api with
    | none => none
    | some (p, g2) => some { g2 with speedups := insert p g2.speedups }
  | .giFood =>
    let g1 := { g with food_points := g.food_points.erase gridPoint }
    match g1.GenerateGridPoint api with
    | none => none
    | some (p, g2) => some { g2 with food_points := insert p g2.food_points }

/-- The advanced head cell `SDL_Point{new_x, new_y}` of lines 85-86. -/
def Game.headCell (api : SnakeApi F R) (s : Snake F R) : SDL_Point :=
  SDL_Point.mk (api.toInt s.head_x) (api.toInt s.head_y)

/-- The member function `Game::Update`, one tick. -/
def Game.Update (api : SnakeApi F R) (g : Game F R) : Option (Game F R) :=
  if !g.snake.alive then some g
  else
    let g1 := { g with snake := api.Update g.snake }
    let new_x := api.toInt g1.snake.head_x
    let new_y := api.toInt g1.snake.head_y
    if SDL_Point.mk new_x new_y ∈ g1.food_points then
      let g2 := { g1 with score := wrapInt (g1.score + 1) }
      match g2.PlaceGridItem api (SDL_Point.mk new_x new_y) .giFood with
      | none => none
      | some g3 =>
        let g4 := { g3 with snake := api.GrowBody g3.snake }
        some { g4 with snake := { g4.snake with speed := api.addStep g4.snake.speed } }
    else if SDL_Point.mk new_x new_y ∈ g1.obstacles then
      some { g1 with snake := { g1.snake with alive := false } }
    else if SDL_Point.mk new_x new_y ∈ g1.slowdowns then
      let g2 := { g1 with slow_downs := wrapInt (g1.slow_downs + 1) }
      match g2.PlaceGridItem api (SDL_Point.mk new_x new_y) .giSlowdown with
      | none => none
      | some g3 =>
        some { g3 with snake := { g3.snake with speed := api.subStep g3.snake.speed } }
    else if SDL_Point.mk new_x new_y ∈ g1.speedups then
      let g2 := { g1 with speed_ups := wrapInt (g1.speed_ups + 1) }
      match g2.PlaceGridItem api (SDL_Point.mk new_x new_y) .giSpeedup with
      | none => none
      | some g3 =>
        some { g3 with snake := { g3.snake with speed := api.addStep g3.snake.speed } }
    else some g1

/-- The tick `Game::Update` run `n` times in a row. -/
def Game.UpdateN (api : SnakeApi F R) : Nat → Game F R → Option (Game F R)
  | 0, g => some g
  | n + 1, g =>
    match g.Update api with
    | none => none
    | some g1 => Game.UpdateN api n g1

/-! ## State predicates -/

/-- The four item sets are pairwise disjoint. -/
def Game.ItemsDisjoint (g : Game F R) : Prop :=
  Disjoint g.obstacles g.slowdowns ∧ Disjoint g.obstacles g.speedups
    ∧ Disjoint g.obstacles g.food_points ∧ Disjoint g.slowdowns g.speedups
    ∧ Disjoint g.slowdowns g.food_points ∧ Disjoint g.speedups g.food_points

/-- No coordinate of an item set is a cell of the agent. -/
def Game.ItemsOffSnake (api : SnakeApi F R) (g : Game F R) : Prop :=
  ∀ p ∈ g.obstacles ∪ g.slowdowns ∪ g.speedups ∪ g.food_points,
    api.SnakeCell g.snake p.x p.y = false

/-- A cell that is a snake cell or a member of one of the four item sets. -/
def Game.Occupied (api : SnakeApi F R) (g : Game F R) (p : SDL_Point) : Prop :=
  api.SnakeCell g.snake p.x p.y = true ∨ p ∈ g.obstacles ∨ p ∈ g.slowdowns
    ∨ p ∈ g.speedups ∨ p ∈ g.food_points

/-- A sample inside `[0, width-1] x [0, height-1]`. -/
def InGrid (width height : Int) (p : SDL_Point) : Prop :=
  0 ≤ p.x ∧ p.x ≤ width - 1 ∧ 0 ≤ p.y ∧ p.y ≤ height - 1

/-- The item set of one kind. -/
def Game.itemSet (g : Game F R) : GridItemType → Finset SDL_Point
  | .giObstacle => g.obstacles
  | .giSlowdown => g.slowdowns
  | .giSpeedup => g.speedups
  | .giFood => g.food_points

/-- The state in which `Game::PlaceGridItem` generates the replacement:
`gridPoint` is erased from the set of the item kind. -/
def Game.eraseItem (g : Game F R) (gridPoint : SDL_Point) : GridItemType → Game F R
  | .giObstacle => { g with obstacles := g.obstacles.erase gridPoint }
  | .giSlowdown => { g with slowdowns := g.slowdowns.erase gridPoint }
  | .giSpeedup => { g with speedups := g.speedups.erase gridPoint }
  | .giFood => { g with food_points := g.food_points.erase gridPoint }

/-! ## Floating point -/

/-- Modelled from the spec: the Agent's speed is a `float` (section 3), and so
are the positions that `game.cpp` casts to `int`; `snake.h`, which declares
them, is not among the sources.  A `float` is an IEEE binary32 number, given
here by its bit pattern: one sign bit, eight exponent bits, 23 fraction
bits. -/
structure F32 where
  bits : Nat
deriving DecidableEq

/-- The sign bit. -/
def F32.sign (v : F32) : Nat := v.bits / 2 ^ 31 % 2

/-- The exponent field. -/
def F32.expField (v : F32) : Nat := v.bits / 2 ^ 23 % 256

/-- The fraction field. -/
def F32.manField (v : F32) : Nat := v.bits % 2 ^ 23

/-- The magnitude `m * 2 ^ e` of a finite `float`, subnormal or normal. -/
def F32.magnitude (v : F32) : Nat × Int :=
  if v.expField = 0 then (v.manField, -149)
  else (2 ^ 23 + v.manField, (v.expField : Int) - 150)

/-- The number of binary digits of `n`, counted with `fuel` steps. -/
def bitLength : Nat → Nat → Nat
  | 0, _ => 0
  | fuel + 1, n => if n = 0 then 0 else bitLength fuel (n / 2) + 1

/-- The quotient of `m` by `2 ^ k` rounded to the nearest integer, a tie to
the even one. -/
def roundShift (m k : Nat) : Nat :=
  if 2 ^ (k - 1) < m % 2 ^ k ∨ (m % 2 ^ k = 2 ^ (k - 1) ∧ m / 2 ^ k % 2 = 1) then
    m / 2 ^ k + 1
  else m / 2 ^ k

/-- Rounding of `m * 2 ^ e` to the nearest number with `p` binary digits and
an exponent not below `qmin`, ties to the even one: the digits and the
exponent of the result. -/
def roundNearestEven (p : Nat) (qmin : Int) (m : Nat) (e : Int) : Nat × Int :=
  let q := max (e + (bitLength 2048 m : Int) - (p : Int)) qmin
  if q ≤ e then (m * 2 ^ (e - q).toNat, q)
  else (roundShift m (q - e).toNat, q)

/-- The `float` with the given sign and the magnitude `m * 2 ^ q`, where `m`
has at most 24 digits (or is `2 ^ 24`) and `q` is at least -149; a magnitude
above the largest `float` gives infinity. -/
def F32.encode (neg : Bool) (m : Nat) (q : Int) : F32 :=
  let s := if neg then 2 ^ 31 else 0
  let (m1, q1) := if m = 2 ^ 24 then (2 ^ 23, q + 1) else (m, q)
  if m1 < 2 ^ 23 then F32.mk (s + m1)
  else if 104 < q1 then F32.mk (s + 255 * 2 ^ 23)
  else F32.mk (s + (q1 + 150).toNat * 2 ^ 23 + (m1 - 2 ^ 23))

/-- The digits of the `double` written `0.02`: it is
`5764607523034235 * 2 ^ -58`. -/
def digits002 : Nat := 5764607523034235

/-- The assignments `speed += 0.02` (`cneg = false`) and `speed -= 0.02`
(`cneg = true`) on a `float`: the `float` is converted to `double`, the
`double` 0.02 is added or subtracted exactly and the sum rounded to the
nearest `double`, and that is rounded to the nearest `float`.  An infinity
stays, a NaN comes back quiet. -/
def F32.addDouble (cneg : Bool) (v : F32) : F32 :=
  if v.expField = 255 then
    if v.manField = 0 then v
    else if v.manField / 2 ^ 22 = 0 then F32.mk (v.bits + 2 ^ 22) else v
  else
    let (m, e) := v.magnitude
    let e0 := min e (-58)
    let a : Int := (if v.sign = 1 then -1 else 1) * ((m * 2 ^ (e - e0).toNat : Nat) : Int)
    let b : Int :=
      (if cneg then -1 else 1) * ((digits002 * 2 ^ (-58 - e0).toNat : Nat) : Int)
    let (m64, q64) := roundNearestEven 53 (-1074) (a + b).natAbs e0
    let (m32, q32) := roundNearestEven 24 (-149) m64 q64
    F32.encode (decide (a + b < 0)) m32 q32

/-- The conversion `static_cast<int>` of a `float`: the value cut off towards
zero.  For a NaN, an infinity or a value that is no `int` the conversion is
undefined in C++; the result here is the `INT_MIN` that the conversion
instruction of x86 delivers. -/
def F32.toInt (v : F32) : Int :=
  if v.expField = 255 then -2147483648
  else
    let (m, e) := v.magnitude
    let t : Nat := if 0 ≤ e then m * 2 ^ e.toNat else m / 2 ^ (-e).toNat
    let r : Int := if v.sign = 1 then -(t : Int) else (t : Int)
    if -2147483648 ≤ r ∧ r ≤ 2147483647 then r else -2147483648

/-- The agent interface with the floating-point operations fixed to the ones
the machine performs on `float`s; the member functions of the agent stay
parameters. -/
def SnakeApi.ieee (api : SnakeApi F32 R) : SnakeApi F32 R :=
  { api with
    toInt := F32.toInt
    addStep := F32.addDouble false
    subStep := F32.addDouble true }

/-! ## A concrete agent -/

/-- The private members of the concrete agent: the cells behind the head
(nearest first), the heading as a unit step, and the growth flag. -/
structure RefBody where
  body : List SDL_Point
  dx : Int
  dy : Int
  growing : Bool
deriving DecidableEq

/-- Modelled from the spec: the Agent of sections 3 and 6, whose `snake.cpp`
is not among the sources.  Positions are whole cells, the speed is counted
in hundredths; a step moves the head one cell along the heading, puts the
old head cell in front of the body and drops the last body cell unless the
agent is growing; a cell is a snake cell when it is the head or a body
cell; growing sets the growth flag. -/
def refApi : SnakeApi Int RefBody where
  toInt := fun v => v
  addStep := fun v => v + 2
  subStep := fun v => v - 2
  Update := fun s =>
    { s with
      head_x := s.head_x + s.priv.dx
      head_y := s.head_y + s.priv.dy
      size := if s.priv.growing then s.size + 1 else s.size
      priv :=
        { s.priv with
          body :=
            if s.priv.growing then SDL_Point.mk s.head_x s.head_y :: s.priv.body
            else (SDL_Point.mk s.head_x s.head_y :: s.priv.body).dropLast
          growing := false } }
  GrowBody := fun s => { s with priv := { s.priv with growing := true } }
  SnakeCell := fun s x y =>
    decide (x = s.head_x ∧ y = s.head_y) || decide (SDL_Point.mk x y ∈ s.priv.body)

/-- The agent of the spec's food scenario: a single cell (5,5), heading up. -/
def refSnake : Snake Int RefBody :=
  { head_x := 5, head_y := 5, speed := 16, alive := true, size := 1,
    priv := { body := [], dx := 0, dy := -1, growing := false } }

/-- The game of the spec's food scenario on a 10 x 10 grid, with one item of
each of the other kinds and four samples to come. -/
def refGame : Game Int RefBody :=
  { snake := refSnake
    obstacles := {SDL_Point.mk 1 1}
    slowdowns := {SDL_Point.mk 2 2}
    speedups := {SDL_Point.mk 3 3}
    food_points := {SDL_Point.mk 5 4}
    score := 0, slow_downs := 0, speed_ups := 0
    engine := [SDL_Point.mk 5 4, SDL_Point.mk 1 1, SDL_Point.mk 7 7, SDL_Point.mk 0 9] }

/-- The state `refGame` after one tick: the food (5,4) is eaten, the samples
(5,4) and (1,1) are rejected and (7,7) is the new food. -/
def refGameFed : Game Int RefBody :=
  { refGame with
    snake :=
      { refSnake with
        head_y := 4
        speed := 18
        priv := { body := [], dx := 0, dy := -1, growing := true } }
    food_points := {SDL_Point.mk 7 7}
    score := 1
    engine := [SDL_Point.mk 0 9] }

/-- The state `refGame` with the obstacle moved to (5,4), the cell the agent
steps on, and the food moved away to (8,8). -/
def obstGame : Game Int RefBody :=
  { refGame with
    obstacles := {SDL_Point.mk 5 4}
    food_points := {SDL_Point.mk 8 8} }

/-- The state `refGame` with the speedup tile on the food cell (5,4). -/
def overlapGame : Game Int RefBody :=
  { refGame with speedups := {SDL_Point.mk 5 4} }

/-- The state `refGame` with five samples to come: (5,4) is food, (7,7)
comes twice, so that a batch of two needs a second round. -/
def batchGame : Game Int RefBody :=
  { refGame with
    engine := [SDL_Point.mk 5 4, SDL_Point.mk 7 7, SDL_Point.mk 7 7, SDL_Point.mk 0 9,
      SDL_Point.mk 6 6] }

/-- The state `refGame` with a dead agent. -/
def deadGame : Game Int RefBody :=
  { refGame with snake := { refSnake with alive := false } }

/-! ## The tick in the words of the spec -/

/-- The first of Food, Obstacle, Slowdown, Speedup whose set holds the cell
(section 4.2: fixed order, first match wins). -/
def Game.firstMatch (g : Game F R) (h : SDL_Point) : Option GridItemType :=
  if h ∈ g.food_points then some .giFood
  else if h ∈ g.obstacles then some .giObstacle
  else if h ∈ g.slowdowns then some .giSlowdown
  else if h ∈ g.speedups then some .giSpeedup
  else none

/-- The effect of one item kind on the state whose agent has advanced onto
the cell `h`, steps 4 to 7 of section 4.2 of the spec. -/
def Game.itemEffect (api : SnakeApi F R) (h : SDL_Point) :
    GridItemType → Game F R → Option (Game F R)
  | .giFood, g =>
    match Game.PlaceGridItem api h .giFood { g with score := wrapInt (g.score + 1) } with
    | none => none
    | some g3 =>
      some { g3 with snake := { api.GrowBody g3.snake with
                                speed := api.addStep (api.GrowBody g3.snake).speed } }
  | .giObstacle, g => some { g with snake := { g.snake with alive := false } }
  | .giSlowdown, g =>
    match Game.PlaceGridItem api h .giSlowdown
        { g with slow_downs := wrapInt (g.slow_downs + 1) } with
    | none => none
    | some g3 =>
      some { g3 with snake := { g3.snake with speed := api.subStep g3.snake.speed } }
  | .giSpeedup, g =>
    match Game.PlaceGridItem api h .giSpeedup
        { g with speed_ups := wrapInt (g.speed_ups + 1) } with
    | none => none
    | some g3 =>
      some { g3 with snake := { g3.snake with speed := api.addStep g3.snake.speed } }

/-- The tick as section 4.2 of the spec words it: nothing on a dead agent;
otherwise advance the agent and apply the effect of the first item kind that
matches the new head cell, or none.  Written from the spec for comparison
with `Game.Update`. -/
def Game.tickSpec (api : SnakeApi F R) (g : Game F R) : Option (Game F R) :=
  if g.snake.alive = false then some g
  else
    match Game.firstMatch g (Game.headCell api (api.Update g.snake)) with
    | none => some { g with snake := api.Update g.snake }
    | some kind =>
      Game.itemEffect api (Game.headCell api (api.Update g.snake)) kind
        { g with snake := api.Update g.snake }

/-! ## The configuration provider -/

/-- The data members of `Config`. -/
structure Config where
  _obstacles : Int
  _slowdowns : Int
  _speedups : Int
deriving DecidableEq

/-- The member function `Config::getObstacles`. -/
def Config.getObstacles (c : Config) : Int := c._obstacles

/-- The member function `Config::getSlowdowns`. -/
def Config.getSlowdowns (c : Config) : Int := c._slowdowns

/-- The member function `Config::getSpeedups`. -/
def Config.getSpeedups (c : Config) : Int := c._speedups

/-- White space as `operator>>` and `strtol` skip it in the classic locale:
the space and the characters 9 to 13. -/
def isSpace (c : Char) : Bool :=
  c.toNat == 32 || (decide (9 ≤ c.toNat) && decide (c.toNat ≤ 13))

/-- A decimal digit. -/
def isDigit (c : Char) : Bool :=
  decide (48 ≤ c.toNat) && decide (c.toNat ≤ 57)

/-- The value of a run of decimal digits, most significant first. -/
def digitsValue (ds : List Char) : Int :=
  ds.foldl (fun acc c => acc * 10 + ((c.toNat - 48 : Nat) : Int)) 0

/-- The library function `std::stoi(str)` in base 10: white space is
skipped, then an optional sign and the longest run of digits are read; `none`
stands for the exception thrown when there is no digit (`invalid_argument`)
or the value is no `int` (`out_of_range`). -/
def stoi (str : List Char) : Option Int :=
  let s1 := str.dropWhile isSpace
  let s2 := if s1.head? = some '-' ∨ s1.head? = some '+' then s1.tail else s1
  let ds := s2.takeWhile isDigit
  if ds = [] then none
  else
    let r := if s1.head? = some '-' then -digitsValue ds else digitsValue ds
    if -2 ^ 31 ≤ r ∧ r ≤ 2 ^ 31 - 1 then some r else none

/-- The library function `std::getline(in_stream, line)` on the characters
still to be read: the line up to the next newline and the characters after
that newline; `none` when nothing is left and the call fails. -/
def getline (stream : List Char) : Option (List Char × List Char) :=
  match stream with
  | [] => none
  | _ :: _ =>
    some (stream.takeWhile (fun c => !(c == Char.ofNat 10)),
      (stream.dropWhile (fun c => !(c == Char.ofNat 10))).tail)

/-- The extraction `basicInputStringStream >> value`: the first word of the
line; on a line of white space only the extraction fails and `value` keeps
what it held. -/
def extractWord (line value : List Char) : List Char :=
  match line.dropWhile isSpace with
  | [] => value
  | c :: cs => (c :: cs).takeWhile (fun d => !isSpace d)

/-- One block `if (std::getline(in_stream, line)) { ... l = stoi(value); }` of
`Config::ReadConfig`: the count, the word held by `value` and the characters
still to be read; `none` when `stoi` throws. -/
def Config.readCount (l : Int) (value stream : List Char) :
    Option (Int × List Char × List Char) :=
  match getline stream with
  | none => some (l, value, stream)
  | some (line, rest) =>
    match stoi (extractWord line value) with
    | none => none
    | some n => some (n, extractWord line value, rest)

/-- The member function `Config::ReadConfig` on the contents of the
configuration file, `none` for a file that cannot be opened.  The result is
`none` when `stoi` throws. -/
def Config.ReadConfig (file : Option (List Char)) : Option (Int × Int × Int) :=
  match file with
  | none => some (0, 0, 0)
  | some stream =>
    match Config.readCount 0 [] stream with
    | none => none
    | some (l1, value1, stream1) =>
      match Config.readCount 0 value1 stream1 with
      | none => none
      | some (l2, value2, stream2) =>
        match Config.readCount 0 value2 stream2 with
        | none => none
        | some (l3, _, _) => some (l1, l2, l3)

/-- The constructor `Config::Config`. -/
def Config.construct (file : Option (List Char)) : Option Config :=
  match Config.ReadConfig file with
  | none => none
  | some (l1, l2, l3) => some { _obstacles := l1, _slowdowns := l2, _speedups := l3 }

/-! ## Construction of the game -/

/-- The constructor `Game::Game`.  Before its body runs the four sets are
empty; `snake` is the agent handed out by `Snake::Instance`, `engine` the
samples the seeded engine will deliver, `foodPoints` the value of
`Config::getFoodPoints` and `score`, `slow_downs`, `speed_ups` the initial
values of the counters (`snake.h`, `config.h` and `game.h` are not among the
sources). -/
def Game.construct (api : SnakeApi F R) (config : Config) (foodPoints : Int)
    (snake : Snake F R) (engine : List SDL_Point) (score slow_downs speed_ups : Int) :
    Option (Game F R) :=
  let g0 : Game F R :=
    { snake := snake, obstacles := ∅, slowdowns := ∅, speedups := ∅, food_points := ∅,
      score := score, slow_downs := slow_downs, speed_ups := speed_ups, engine := engine }
  match g0.GenerateGridPoints api config.getObstacles with
  | none => none
  | some (pts1, g1) =>
    match Game.GenerateGridPoints api config.getSlowdowns { g1 with obstacles := pts1 } with
    | none => none
    | some (pts2, g2) =>
      match Game.GenerateGridPoints api config.getSpeedups { g2 with slowdowns := pts2 } with
      | none => none
      | some (pts3, g3) =>
        match Game.GenerateGridPoints api foodPoints { g3 with speedups := pts3 } with
        | none => none
        | some (pts4, g4) => some { g4 with food_points := pts4 }

/-- A count that is a non-negative value of the C++ type `int`. -/
def IsCount (n : Int) : Prop := 0 ≤ n ∧ n ≤ 2147483647

/-! ## More concrete states -/

/-- The state `refGame` with an obstacle on the food cell (5,4). -/
def foodObstGame : Game Int RefBody :=
  { refGame with obstacles := {SDL_Point.mk 5 4} }

/-- The state `refGame` with the slowdown tile on (5,4), also a speedup
tile, and the food moved away to (8,8). -/
def slowGame : Game Int RefBody :=
  { refGame with
    slowdowns := {SDL_Point.mk 5 4}
    speedups := {SDL_Point.mk 5 4}
    food_points := {SDL_Point.mk 8 8} }

/-- The state `refGame` with the food moved away to (8,8): the cell (5,4)
holds no item. -/
def plainGame : Game Int RefBody :=
  { refGame with food_points := {SDL_Point.mk 8 8} }

/-- The state `slowGame` after one tick: the slowdown (5,4) is replaced by
(7,7), the speedup (5,4) stays. -/
def slowGameHit : Game Int RefBody :=
  { slowGame with
    snake := { refSnake with head_y := 4, speed := 14 }
    slowdowns := {SDL_Point.mk 7 7}
    slow_downs := 1
    engine := [SDL_Point.mk 0 9] }

/-- The game constructed from `refConfig`, one food point, `refSnake` and
`refSamples`. -/
def builtGame : Game Int RefBody :=
  { snake := refSnake
    obstacles := {SDL_Point.mk 1 1}
    slowdowns := {SDL_Point.mk 3 3, SDL_Point.mk 2 2}
    speedups := {SDL_Point.mk 4 4}
    food_points := {SDL_Point.mk 6 6}
    score := 0, slow_downs := 0, speed_ups := 0
    engine := [SDL_Point.mk 0 9] }

/-- The state `foodObstGame` after one tick: the food (5,4) is eaten and
replaced by (1,1), the obstacle (5,4) stays and the agent is alive. -/
def foodObstGameFed : Game Int RefBody :=
  { foodObstGame with
    snake :=
      { refSnake with
        head_y := 4
        speed := 18
        priv := { body := [], dx := 0, dy := -1, growing := true } }
    food_points := {SDL_Point.mk 1 1}
    score := 1
    engine := [SDL_Point.mk 7 7, SDL_Point.mk 0 9] }

/-- The state `obstGame` after one tick: the agent is dead on the obstacle
(5,4). -/
def obstGameHit : Game Int RefBody :=
  { obstGame with snake := { refSnake with head_y := 4, alive := false } }

/-- A configuration of one obstacle, two slowdowns and one speedup. -/
def refConfig : Config := { _obstacles := 1, _slowdowns := 2, _speedups := 1 }

/-- Samples for a construction: the head cell (5,5), then (1,1), (2,2)
twice, (3,3), the obstacle (1,1) again, (4,4), (6,6) and (0,9). -/
def refSamples : List SDL_Point :=
  [SDL_Point.mk 5 5, SDL_Point.mk 1 1, SDL_Point.mk 2 2, SDL_Point.mk 2 2, SDL_Point.mk 3 3,
    SDL_Point.mk 1 1, SDL_Point.mk 4 4, SDL_Point.mk 6 6, SDL_Point.mk 0 9]

/-- A configuration file of three lines: `4 x`, an empty line, `+7`. -/
def refFile : List Char :=
  ['4', ' ', 'x', Char.ofNat 10, Char.ofNat 10, '+', '7', Char.ofNat 10]

/-- A configuration file whose only line is `-3`. -/
def negFile : List Char := ['-', '3']

/-! ## Further agents and states -/

/-- An agent like `refApi` whose `SnakeCell` looks at the cells behind the
head only, not at the head. -/
def bareApi : SnakeApi Int RefBody :=
  { refApi with SnakeCell := fun s x y => decide (SDL_Point.mk x y ∈ s.priv.body) }

/-- Modelled from the spec: the Agent that has grown by one cell as soon as
the food tick is over (section 4.2 step 4; in the scenario of section 8 its
size is 2 right after the tick).  It is `refApi` with a `GrowBody` that puts
the cell one step behind its last cell on the body at once. -/
def eagerApi : SnakeApi Int RefBody :=
  { refApi with
    GrowBody := fun s =>
      { s with
        size := s.size + 1
        priv :=
          { s.priv with
            body :=
              s.priv.body ++
                [SDL_Point.mk
                  ((s.priv.body.getLast?.getD (SDL_Point.mk s.head_x s.head_y)).x - s.priv.dx)
                  ((s.priv.body.getLast?.getD (SDL_Point.mk s.head_x s.head_y)).y
                    - s.priv.dy)] } } }

/-- Modelled from the spec: the Agent that terminates on collision with
itself (section 1).  It is `refApi` with an `Update` that clears `alive` when
the new head cell is one of the body cells. -/
def selfApi : SnakeApi Int RefBody :=
  { refApi with
    Update := fun s =>
      { refApi.Update s with
        alive :=
          (refApi.Update s).alive
            && !decide (SDL_Point.mk (refApi.Update s).head_x (refApi.Update s).head_y
                  ∈ (refApi.Update s).priv.body) } }

/-- A `float` agent for the examples: it visits the positions listed in its
private part, one per step, counts its size up when it grows, and its only
cell is the head cell.  The floating-point operations are those of
`SnakeApi.ieee`. -/
def trackApi : SnakeApi F32 (List (F32 × F32)) where
  toInt := F32.toInt
  addStep := F32.addDouble false
  subStep := F32.addDouble true
  Update := fun s =>
    match s.priv with
    | [] => s
    | pos :: rest => { s with head_x := pos.1, head_y := pos.2, priv := rest }
  GrowBody := fun s => { s with size := s.size + 1 }
  SnakeCell := fun s x y => decide (x = F32.toInt s.head_x ∧ y = F32.toInt s.head_y)

/-- The `float` 0.1, the nearest `float` to one tenth. -/
def f32Tenth : F32 := F32.mk 1036831949

/-- The `float` 16777216, that is `2 ^ 24`. -/
def f32Big : F32 := F32.mk 1266679808

/-- The `float` agent at (5.0, 5.0) with the given speed, about to step to
(5.0, 4.0). -/
def trackSnake (speed : F32) : Snake F32 (List (F32 × F32)) :=
  { head_x := F32.mk 1084227584, head_y := F32.mk 1084227584, speed := speed, alive := true,
    size := 1, priv := [(F32.mk 1084227584, F32.mk 1082130432)] }

/-- The food scenario for the `float` agent. -/
def trackFoodGame (speed : F32) : Game F32 (List (F32 × F32)) :=
  { snake := trackSnake speed
    obstacles := {SDL_Point.mk 1 1}
    slowdowns := {SDL_Point.mk 2 2}
    speedups := {SDL_Point.mk 3 3}
    food_points := {SDL_Point.mk 5 4}
    score := 0, slow_downs := 0, speed_ups := 0
    engine := [SDL_Point.mk 5 4, SDL_Point.mk 1 1, SDL_Point.mk 7 7, SDL_Point.mk 0 9] }

/-- The state `trackFoodGame` with the slowdown tile on (5,4) and the food
moved away to (8,8). -/
def trackSlowGame (speed : F32) : Game F32 (List (F32 × F32)) :=
  { trackFoodGame speed with
    slowdowns := {SDL_Point.mk 5 4}
    food_points := {SDL_Point.mk 8 8} }

/-- The state `trackFoodGame` with the speedup tile on (5,4) and the food
moved away to (8,8). -/
def trackFastGame (speed : F32) : Game F32 (List (F32 × F32)) :=
  { trackFoodGame speed with
    speedups := {SDL_Point.mk 5 4}
    food_points := {SDL_Point.mk 8 8} }

/-- The state `refGame` with the score at `INT_MAX`. -/
def maxScoreGame : Game Int RefBody := { refGame with score := 2147483647 }

/-- The state `refGame` with two samples to come, both occupied: the food
cell under the head and the obstacle. -/
def starvedGame : Game Int RefBody :=
  { refGame with engine := [SDL_Point.mk 5 4, SDL_Point.mk 1 1] }

/-- The state `refGame` whose next sample is (5,5), the cell the head
leaves. -/
def vacatedGame : Game Int RefBody :=
  { refGame with engine := [SDL_Point.mk 5 5, SDL_Point.mk 7 7] }

/-- The state `refGame` with the slowdown tile on (5,4) and the food moved
away to (8,8). -/
def slowOnlyGame : Game Int RefBody :=
  { refGame with
    slowdowns := {SDL_Point.mk 5 4}
    food_points := {SDL_Point.mk 8 8} }

/-- The state `slowOnlyGame` with the slowdown-hit counter at `INT_MAX`. -/
def maxSlowGame : Game Int RefBody := { slowOnlyGame with slow_downs := 2147483647 }

/-- The state `slowOnlyGame` with two samples to come, both occupied. -/
def starvedSlowGame : Game Int RefBody :=
  { slowOnlyGame with engine := [SDL_Point.mk 5 4, SDL_Point.mk 1 1] }

/-- A state without an item on (5,4) whose agent of five cells is coiled so
that its step up from (5,5) lands on its own body cell (5,4). -/
def coiledGame : Game Int RefBody :=
  { plainGame with
    snake :=
      { refSnake with
        size := 5
        priv :=
          { body := [SDL_Point.mk 6 5, SDL_Point.mk 6 4, SDL_Point.mk 5 4, SDL_Point.mk 4 4]
            dx := 0, dy := -1, growing := false } } }

/-! ## The comparison and set membership -/

/-- Two coordinates that the comparison does not separate are equal, so a
`std::set<SDL_Point>` holds a coordinate at most once and finds exactly
the coordinates equal to the one looked up. -/
theorem SDL_Point.equiv_iff_eq (a b : SDL_Point) :
    (a.lt b = false ∧ b.lt a = false) ↔ a = b := by
  obtain ⟨ax, ay⟩ := a
  obtain ⟨bx, cy⟩ := b
  simp only [SDL_Point.lt, SDL_Point.mk.injEq]
  constructor
  · rintro ⟨h1, h2⟩
    by_cases hx : ax = bx
    · subst hx
      by_cases hy : ay = cy
      · exact ⟨rfl, hy⟩
      · have hy2 : ¬ cy = ay := fun h => hy h.symm
        simp [hy, hy2] at h1 h2
        omega
    · have hx2 : ¬ bx = ax := fun h => hx h.symm
      simp [hx, hx2] at h1 h2
      omega
  · rintro ⟨rfl, rfl⟩
    simp

/-! ## The single-point search -/

theorem Game.cellFree_eq_true_iff (api : SnakeApi F R) (g : Game F R) (p : SDL_Point) :
    g.cellFree api p.x p.y = true ↔ ¬ g.Occupied api p := by
  obtain ⟨x, y⟩ := p
  simp only [Game.cellFree, Game.Occupied, Bool.and_eq_true, Bool.not_eq_true',
    decide_eq_true_eq]
  constructor
  · rintro ⟨⟨⟨⟨h1, h2⟩, h3⟩, h4⟩, h5⟩
    simp [h1, h2, h3, h4, h5]
  · intro h
    simp only [not_or] at h
    obtain ⟨h1, h2, h3, h4, h5⟩ := h
    exact ⟨⟨⟨⟨by simpa using h1, h2⟩, h3⟩, h4⟩, h5⟩

theorem Game.cellFree_eq_false_iff (api : SnakeApi F R) (g : Game F R) (p : SDL_Point) :
    g.cellFree api p.x p.y = false ↔ g.Occupied api p := by
  rw [← Bool.not_eq_true, Game.cellFree_eq_true_iff, not_not]

/-- The acceptance test does not look at the engine. -/
theorem Game.cellFree_engine (api : SnakeApi F R) (g : Game F R) (e : List SDL_Point)
    (x y : Int) : Game.cellFree api { g with engine := e } x y = g.cellFree api x y := rfl

theorem Game.Occupied_engine (api : SnakeApi F R) (g : Game F R) (e : List SDL_Point)
    (p : SDL_Point) : Game.Occupied api { g with engine := e } p ↔ g.Occupied api p := Iff.rfl

theorem Game.searchPoint_engine (api : SnakeApi F R) (g : Game F R) (e l : List SDL_Point) :
    Game.searchPoint api { g with engine := e } l = g.searchPoint api l := by
  induction l with
  | nil => rfl
  | cons s rest ih => simp only [Game.searchPoint, Game.cellFree_engine, ih]

/-- The search returns `p` and leaves `rest` exactly when the samples are a
run of rejected samples, then the accepted `p`, then `rest`. -/
theorem Game.searchPoint_eq_some_iff (api : SnakeApi F R) (g : Game F R)
    (l : List SDL_Point) (p : SDL_Point) (rest : List SDL_Point) :
    g.searchPoint api l = some (p, rest) ↔
      ∃ pre, l = pre ++ p :: rest ∧ (∀ q ∈ pre, g.cellFree api q.x q.y = false)
        ∧ g.cellFree api p.x p.y = true := by
  induction l with
  | nil => simp [Game.searchPoint]
  | cons s tl ih =>
    by_cases hs : g.cellFree api s.x s.y = true
    · simp only [Game.searchPoint, hs, if_true, Option.some.injEq, Prod.mk.injEq]
      constructor
      · rintro ⟨rfl, rfl⟩
        exact ⟨[], rfl, by simp, hs⟩
      · rintro ⟨pre, hl, hpre, _⟩
        cases pre with
        | nil =>
          simp only [List.nil_append, List.cons.injEq] at hl
          exact ⟨hl.1, hl.2⟩
        | cons q pre =>
          simp only [List.cons_append, List.cons.injEq] at hl
          have := hpre q (by simp)
          rw [← hl.1, hs] at this
          exact absurd this (by simp)
    · simp only [Game.searchPoint, hs, if_false, Bool.false_eq_true]
      rw [ih]
      constructor
      · rintro ⟨pre, hl, hpre, hp⟩
        refine ⟨s :: pre, by simp [hl], ?_, hp⟩
        intro q hq
        rcases List.mem_cons.mp hq with rfl | hq
        · simpa using hs
        · exact hpre q hq
      · rintro ⟨pre, hl, hpre, hp⟩
        cases pre with
        | nil =>
          simp only [List.nil_append, List.cons.injEq] at hl
          rw [hl.1] at hs
          exact absurd hp hs
        | cons q pre =>
          simp only [List.cons_append, List.cons.injEq] at hl
          exact ⟨pre, hl.2, fun r hr => hpre r (by simp [hr]), hp⟩

/-- The search uses up the samples exactly when every sample is rejected. -/
theorem Game.searchPoint_eq_none_iff (api : SnakeApi F R) (g : Game F R)
    (l : List SDL_Point) :
    g.searchPoint api l = none ↔ ∀ q ∈ l, g.cellFree api q.x q.y = false := by
  induction l with
  | nil => simp [Game.searchPoint]
  | cons s tl ih =>
    by_cases hs : g.cellFree api s.x s.y = true
    · simp only [Game.searchPoint, hs, if_true, List.mem_cons, forall_eq_or_imp]
      simp
    · simp only [Game.searchPoint, hs, if_false, Bool.false_eq_true, List.mem_cons,
        forall_eq_or_imp, ih]
      simp only [Bool.not_eq_true] at hs
      simp [hs]

/-- What a successful `GenerateGridPoint` returns. -/
theorem Game.GenerateGridPoint_eq_some (api : SnakeApi F R) (g : Game F R)
    (p : SDL_Point) (g' : Game F R) (h : g.GenerateGridPoint api = some (p, g')) :
    g' = { g with engine := g'.engine }
      ∧ (∃ pre, g.engine = pre ++ p :: g'.engine
          ∧ ∀ q ∈ pre, g.cellFree api q.x q.y = false)
      ∧ g.cellFree api p.x p.y = true := by
  unfold Game.GenerateGridPoint at h
  split at h
  · exact absurd h (by simp)
  · rename_i q rest hs
    simp only [Option.some.injEq, Prod.mk.injEq] at h
    obtain ⟨rfl, rfl⟩ := h
    obtain ⟨pre, hl, hpre, hp⟩ := (Game.searchPoint_eq_some_iff api g _ _ _).mp hs
    exact ⟨rfl, ⟨pre, hl, hpre⟩, hp⟩

/-! ## The batch search -/

theorem mem_insertAll (pts : Finset SDL_Point) (ps : List SDL_Point) (p : SDL_Point) :
    p ∈ insertAll pts ps ↔ p ∈ pts ∨ p ∈ ps := by
  induction ps generalizing pts with
  | nil => simp [insertAll]
  | cons q qs ih =>
    simp only [insertAll, ih, Finset.mem_insert, List.mem_cons]
    tauto

theorem card_insertAll_le (pts : Finset SDL_Point) (ps : List SDL_Point) :
    (insertAll pts ps).card ≤ pts.card + ps.length := by
  induction ps generalizing pts with
  | nil => simp [insertAll]
  | cons q qs ih =>
    have h1 := ih (insert q pts)
    have h2 := Finset.card_insert_le q pts
    simp only [insertAll, List.length_cons]
    omega

/-- What a successful round of `k` workers returns: `k` accepted samples of
the engine, at the cost of at least `k` samples; only the engine moves. -/
theorem Game.launchWorkers_eq_some (api : SnakeApi F R) (k : Nat) (g : Game F R)
    (ps : List SDL_Point) (g' : Game F R) (h : g.launchWorkers api k = some (ps, g')) :
    g' = { g with engine := g'.engine } ∧ ps.length = k
      ∧ (∀ p ∈ ps, g.cellFree api p.x p.y = true ∧ p ∈ g.engine)
      ∧ g'.engine.length + k ≤ g.engine.length
      ∧ (∀ s ∈ g'.engine, s ∈ g.engine) := by
  induction k generalizing g ps g' with
  | zero =>
    simp only [Game.launchWorkers, Option.some.injEq, Prod.mk.injEq] at h
    obtain ⟨rfl, rfl⟩ := h
    simp
  | succ k ih =>
    simp only [Game.launchWorkers] at h
    split at h
    · exact absurd h (by simp)
    · rename_i p g1 h1
      split at h
      · exact absurd h (by simp)
      · rename_i qs g2 h2
        simp only [Option.some.injEq, Prod.mk.injEq] at h
        obtain ⟨rfl, rfl⟩ := h
        obtain ⟨e1, ⟨pre, hpre, _⟩, hfree⟩ := Game.GenerateGridPoint_eq_some api g p g1 h1
        obtain ⟨e2, hlen, hall, hcost, hsub⟩ := ih g1 qs g2 h2
        have hg1 : ∀ s ∈ g1.engine, s ∈ g.engine := by
          intro s hs
          rw [hpre]
          simp [hs]
        refine ⟨?_, by simp [hlen], ?_, ?_, fun s hs => hg1 s (hsub s hs)⟩
        · rw [e2]
          conv_lhs => rw [e1]
        · intro q hq
          rcases List.mem_cons.mp hq with rfl | hq
          · exact ⟨hfree, by rw [hpre]; simp⟩
          · obtain ⟨hf, hm⟩ := hall q hq
            rw [e1, Game.cellFree_engine] at hf
            exact ⟨hf, hg1 q hm⟩
        · have : g.engine.length = pre.length + (g1.engine.length + 1) := by
            rw [hpre]; simp
          omega

/-- The number of workers of a round that is entered: the shortfall. -/
theorem toSizeT_shortfall (num : Int) (c : Nat) (h : c < toSizeT num) :
    toSizeT (num - (c : Int)) = toSizeT num - c := by
  unfold toSizeT at *
  have h1 : (0 : Int) ≤ num % 2 ^ 64 := Int.emod_nonneg _ (by norm_num)
  have h2 : num % 2 ^ 64 < 2 ^ 64 := Int.emod_lt_of_pos _ (by norm_num)
  have h3 : ((c : Int)) < num % 2 ^ 64 := by omega
  have h4 : (num - (c : Int)) % 2 ^ 64 = num % 2 ^ 64 - (c : Int) := by
    rw [Int.sub_emod]
    have hc : (c : Int) % 2 ^ 64 = c := Int.emod_eq_of_lt (by omega) (by omega)
    rw [hc]
    exact Int.emod_eq_of_lt (by omega) (by omega)
  rw [h4]
  omega

theorem toSizeT_of_nonneg (num : Int) (h0 : 0 ≤ num) (h64 : num < 2 ^ 64) :
    (toSizeT num : Int) = num := by
  unfold toSizeT
  rw [Int.emod_eq_of_lt h0 h64]
  omega

/-- Partial correctness of the round loop for any property `Q` of the
samples: a returned set has `toSizeT num` elements, each an accepted sample
with `Q`, and only the engine has moved. -/
theorem Game.generateRounds_eq_some (api : SnakeApi F R) (num : Int)
    (Q : SDL_Point → Prop) (fuel : Nat) (pts : Finset SDL_Point) (g : Game F R)
    (res : Finset SDL_Point) (g' : Game F R)
    (hQ : ∀ s ∈ g.engine, Q s) (hcard : pts.card ≤ toSizeT num)
    (hpts : ∀ p ∈ pts, Q p ∧ g.cellFree api p.x p.y = true)
    (h : g.generateRounds api num fuel pts = some (res, g')) :
    res.card = toSizeT num ∧ (∀ p ∈ res, Q p ∧ g.cellFree api p.x p.y = true)
      ∧ g' = { g with engine := g'.engine } := by
  induction fuel generalizing pts g with
  | zero => simp [Game.generateRounds] at h
  | succ fuel ih =>
    simp only [Game.generateRounds] at h
    split at h
    · rename_i hlt
      split at h
      · exact absurd h (by simp)
      · rename_i ps g1 hw
        rw [toSizeT_shortfall num _ hlt] at hw
        obtain ⟨e1, hlen, hall, _, hsub⟩ := Game.launchWorkers_eq_some api _ g ps g1 hw
        have hc := card_insertAll_le pts ps
        have key := ih (insertAll pts ps) g1 (fun s hs => hQ s (hsub s hs))
          (by omega)
          (by
            intro p hp
            rw [e1, Game.cellFree_engine]
            rcases (mem_insertAll pts ps p).mp hp with hp | hp
            · exact hpts p hp
            · exact ⟨hQ p (hall p hp).2, (hall p hp).1⟩)
          h
        obtain ⟨k1, k2, k3⟩ := key
        refine ⟨k1, ?_, ?_⟩
        · intro p hp
          have := k2 p hp
          rw [e1, Game.cellFree_engine] at this
          exact this
        · rw [k3]
          conv_lhs => rw [e1]
    · rename_i hge
      simp only [Option.some.injEq, Prod.mk.injEq] at h
      obtain ⟨rfl, rfl⟩ := h
      exact ⟨by omega, hpts, rfl⟩

/-- More fuel than there are samples changes nothing: with `fuel` above the
number of samples the round loop never stops for lack of fuel. -/
theorem Game.generateRounds_fuel (api : SnakeApi F R) (num : Int) (fuel fuel2 : Nat)
    (pts : Finset SDL_Point) (g : Game F R)
    (h1 : g.engine.length < fuel) (h2 : g.engine.length < fuel2) :
    g.generateRounds api num fuel pts = g.generateRounds api num fuel2 pts := by
  induction fuel generalizing fuel2 pts g with
  | zero => omega
  | succ fuel ih =>
    cases fuel2 with
    | zero => omega
    | succ fuel2 =>
      simp only [Game.generateRounds]
      split
      · rename_i hlt
        rw [toSizeT_shortfall num _ hlt]
        cases hw : g.launchWorkers api (toSizeT num - pts.card) with
        | none => rfl
        | some r =>
          obtain ⟨ps, g1⟩ := r
          obtain ⟨_, _, _, hcost, _⟩ := Game.launchWorkers_eq_some api _ g ps g1 hw
          exact ih fuel2 (insertAll pts ps) g1 (by omega) (by omega)
      · rfl

/-! ## Replacing an item -/

/-- The five facts about an accepted sample. -/
theorem Game.cellFree_facts (api : SnakeApi F R) (g : Game F R) (p : SDL_Point)
    (h : g.cellFree api p.x p.y = true) :
    api.SnakeCell g.snake p.x p.y = false ∧ p ∉ g.obstacles ∧ p ∉ g.slowdowns
      ∧ p ∉ g.speedups ∧ p ∉ g.food_points := by
  have h1 := (Game.cellFree_eq_true_iff api g p).mp h
  simp only [Game.Occupied, not_or] at h1
  obtain ⟨a, b, c, d, e⟩ := h1
  exact ⟨by simpa using a, b, c, d, e⟩

theorem Game.PlaceGridItem_food (api : SnakeApi F R) (pt : SDL_Point) (g g' : Game F R)
    (h : g.PlaceGridItem api pt .giFood = some g') :
    ∃ p, g' = { g with food_points := insert p (g.food_points.erase pt),
                       engine := g'.engine }
      ∧ api.SnakeCell g.snake p.x p.y = false ∧ p ∉ g.obstacles ∧ p ∉ g.slowdowns
      ∧ p ∉ g.speedups ∧ p ∉ g.food_points.erase pt
      ∧ ∃ pre, g.engine = pre ++ p :: g'.engine := by
  simp only [Game.PlaceGridItem] at h
  split at h
  · exact absurd h (by simp)
  · rename_i p g2 hg
    simp only [Option.some.injEq] at h
    obtain ⟨e, ⟨pre, hpre, _⟩, hfree⟩ := Game.GenerateGridPoint_eq_some api _ p g2 hg
    obtain ⟨a, b, c, d, f⟩ := Game.cellFree_facts api _ p hfree
    refine ⟨p, ?_, a, b, c, d, f, pre, ?_⟩
    · rw [← h, e]
    · rw [← h]; exact hpre

theorem Game.PlaceGridItem_slowdown (api : SnakeApi F R) (pt : SDL_Point) (g g' : Game F R)
    (h : g.PlaceGridItem api pt .giSlowdown = some g') :
    ∃ p, g' = { g with slowdowns := insert p (g.slowdowns.erase pt),
                       engine := g'.engine }
      ∧ api.SnakeCell g.snake p.x p.y = false ∧ p ∉ g.obstacles
      ∧ p ∉ g.slowdowns.erase pt ∧ p ∉ g.speedups ∧ p ∉ g.food_points
      ∧ ∃ pre, g.engine = pre ++ p :: g'.engine := by
  simp only [Game.PlaceGridItem] at h
  split at h
  · exact absurd h (by simp)
  · rename_i p g2 hg
    simp only [Option.some.injEq] at h
    obtain ⟨e, ⟨pre, hpre, _⟩, hfree⟩ := Game.GenerateGridPoint_eq_some api _ p g2 hg
    obtain ⟨a, b, c, d, f⟩ := Game.cellFree_facts api _ p hfree
    refine ⟨p, ?_, a, b, c, d, f, pre, ?_⟩
    · rw [← h, e]
    · rw [← h]; exact hpre

theorem Game.PlaceGridItem_speedup (api : SnakeApi F R) (pt : SDL_Point) (g g' : Game F R)
    (h : g.PlaceGridItem api pt .giSpeedup = some g') :
    ∃ p, g' = { g with speedups := insert p (g.speedups.erase pt),
                       engine := g'.engine }
      ∧ api.SnakeCell g.snake p.x p.y = false ∧ p ∉ g.obstacles ∧ p ∉ g.slowdowns
      ∧ p ∉ g.speedups.erase pt ∧ p ∉ g.food_points
      ∧ ∃ pre, g.engine = pre ++ p :: g'.engine := by
  simp only [Game.PlaceGridItem] at h
  split at h
  · exact absurd h (by simp)
  · rename_i p g2 hg
    simp only [Option.some.injEq] at h
    obtain ⟨e, ⟨pre, hpre, _⟩, hfree⟩ := Game.GenerateGridPoint_eq_some api _ p g2 hg
    obtain ⟨a, b, c, d, f⟩ := Game.cellFree_facts api _ p hfree
    refine ⟨p, ?_, a, b, c, d, f, pre, ?_⟩
    · rw [← h, e]
    · rw [← h]; exact hpre

theorem Game.PlaceGridItem_obstacle (api : SnakeApi F R) (pt : SDL_Point) (g g' : Game F R)
    (h : g.PlaceGridItem api pt .giObstacle = some g') :
    ∃ p, g' = { g with obstacles := insert p (g.obstacles.erase pt),
                       engine := g'.engine }
      ∧ api.SnakeCell g.snake p.x p.y = false ∧ p ∉ g.obstacles.erase pt
      ∧ p ∉ g.slowdowns ∧ p ∉ g.speedups ∧ p ∉ g.food_points
      ∧ ∃ pre, g.engine = pre ++ p :: g'.engine := by
  simp only [Game.PlaceGridItem] at h
  split at h
  · exact absurd h (by simp)
  · rename_i p g2 hg
    simp only [Option.some.injEq] at h
    obtain ⟨e, ⟨pre, hpre, _⟩, hfree⟩ := Game.GenerateGridPoint_eq_some api _ p g2 hg
    obtain ⟨a, b, c, d, f⟩ := Game.cellFree_facts api _ p hfree
    refine ⟨p, ?_, a, b, c, d, f, pre, ?_⟩
    · rw [← h, e]
    · rw [← h]; exact hpre

/-! ## The tick, branch by branch -/

/-- A tick on a dead agent returns the state as it is. -/
theorem Game.Update_dead (api : SnakeApi F R) (g : Game F R) (hdead : g.snake.alive = false) :
    g.Update api = some g := by
  simp [Game.Update, hdead]

/-- The food branch (lines 89-94). -/
theorem Game.Update_food (api : SnakeApi F R) (g : Game F R)
    (halive : g.snake.alive = true)
    (hfood : Game.headCell api (api.Update g.snake) ∈ g.food_points) :
    g.Update api =
      match Game.PlaceGridItem api (Game.headCell api (api.Update g.snake)) .giFood
          { g with snake := api.Update g.snake, score := wrapInt (g.score + 1) } with
      | none => none
      | some g3 =>
        some { g3 with snake := { api.GrowBody g3.snake with
                                  speed := api.addStep (api.GrowBody g3.snake).speed } } := by
  simp only [Game.headCell] at hfood
  simp only [Game.Update, halive, Game.headCell, hfood]
  rfl

/-- The obstacle branch (lines 95-96). -/
theorem Game.Update_obstacle (api : SnakeApi F R) (g : Game F R)
    (halive : g.snake.alive = true)
    (hfood : Game.headCell api (api.Update g.snake) ∉ g.food_points)
    (hobst : Game.headCell api (api.Update g.snake) ∈ g.obstacles) :
    g.Update api =
      some { g with snake := { api.Update g.snake with alive := false } } := by
  simp only [Game.headCell] at hfood hobst
  simp only [Game.Update, halive, Game.headCell, hfood, hobst]
  rfl

/-- The slowdown branch (lines 97-100). -/
theorem Game.Update_slowdown (api : SnakeApi F R) (g : Game F R)
    (halive : g.snake.alive = true)
    (hfood : Game.headCell api (api.Update g.snake) ∉ g.food_points)
    (hobst : Game.headCell api (api.Update g.snake) ∉ g.obstacles)
    (hslow : Game.headCell api (api.Update g.snake) ∈ g.slowdowns) :
    g.Update api =
      match Game.PlaceGridItem api (Game.headCell api (api.Update g.snake)) .giSlowdown
          { g with snake := api.Update g.snake,
                   slow_downs := wrapInt (g.slow_downs + 1) } with
      | none => none
      | some g3 =>
        some { g3 with snake := { g3.snake with speed := api.subStep g3.snake.speed } } := by
  simp only [Game.headCell] at hfood hobst hslow
  simp only [Game.Update, halive, Game.headCell, hfood, hobst, hslow]
  rfl

/-- The speedup branch (lines 101-104). -/
theorem Game.Update_speedup (api : SnakeApi F R) (g : Game F R)
    (halive : g.snake.alive = true)
    (hfood : Game.headCell api (api.Update g.snake) ∉ g.food_points)
    (hobst : Game.headCell api (api.Update g.snake) ∉ g.obstacles)
    (hslow : Game.headCell api (api.Update g.snake) ∉ g.slowdowns)
    (hfast : Game.headCell api (api.Update g.snake) ∈ g.speedups) :
    g.Update api =
      match Game.PlaceGridItem api (Game.headCell api (api.Update g.snake)) .giSpeedup
          { g with snake := api.Update g.snake,
                   speed_ups := wrapInt (g.speed_ups + 1) } with
      | none => none
      | some g3 =>
        some { g3 with snake := { g3.snake with speed := api.addStep g3.snake.speed } } := by
  simp only [Game.headCell] at hfood hobst hslow hfast
  simp only [Game.Update, halive, Game.headCell, hfood, hobst, hslow, hfast]
  rfl

/-- The tick that meets no item: only the agent has advanced. -/
theorem Game.Update_none (api : SnakeApi F R) (g : Game F R)
    (halive : g.snake.alive = true)
    (hfood : Game.headCell api (api.Update g.snake) ∉ g.food_points)
    (hobst : Game.headCell api (api.Update g.snake) ∉ g.obstacles)
    (hslow : Game.headCell api (api.Update g.snake) ∉ g.slowdowns)
    (hfast : Game.headCell api (api.Update g.snake) ∉ g.speedups) :
    g.Update api = some { g with snake := api.Update g.snake } := by
  simp only [Game.headCell] at hfood hobst hslow hfast
  simp only [Game.Update, halive, Game.headCell, hfood, hobst, hslow, hfast]
  rfl

/-- The state after a food tick that terminates. -/
theorem Game.Update_food_some (api : SnakeApi F R) (g g' : Game F R)
    (halive : g.snake.alive = true)
    (hfood : Game.headCell api (api.Update g.snake) ∈ g.food_points)
    (hu : g.Update api = some g') :
    ∃ p, g' = { g with
                snake := { api.GrowBody (api.Update g.snake) with
                           speed := api.addStep (api.GrowBody (api.Update g.snake)).speed }
                score := wrapInt (g.score + 1)
                food_points :=
                  insert p (g.food_points.erase (Game.headCell api (api.Update g.snake)))
                engine := g'.engine }
      ∧ api.SnakeCell (api.Update g.snake) p.x p.y = false ∧ p ∉ g.obstacles
      ∧ p ∉ g.slowdowns ∧ p ∉ g.speedups
      ∧ p ∉ g.food_points.erase (Game.headCell api (api.Update g.snake))
      ∧ ∃ pre, g.engine = pre ++ p :: g'.engine := by
  rw [Game.Update_food api g halive hfood] at hu
  split at hu
  · exact absurd hu (by simp)
  · rename_i g3 hg3
    simp only [Option.some.injEq] at hu
    obtain ⟨p, e, a, b, c, d, f, pre, hpre⟩ := Game.PlaceGridItem_food api _ _ g3 hg3
    refine ⟨p, ?_, a, b, c, d, f, pre, ?_⟩
    · rw [← hu]
      conv_lhs => rw [e]
    · rw [← hu]; exact hpre

/-- The state after a slowdown tick that terminates. -/
theorem Game.Update_slowdown_some (api : SnakeApi F R) (g g' : Game F R)
    (halive : g.snake.alive = true)
    (hfood : Game.headCell api (api.Update g.snake) ∉ g.food_points)
    (hobst : Game.headCell api (api.Update g.snake) ∉ g.obstacles)
    (hslow : Game.headCell api (api.Update g.snake) ∈ g.slowdowns)
    (hu : g.Update api = some g') :
    ∃ p, g' = { g with
                snake := { api.Update g.snake with
                           speed := api.subStep (api.Update g.snake).speed }
                slow_downs := wrapInt (g.slow_downs + 1)
                slowdowns :=
                  insert p (g.slowdowns.erase (Game.headCell api (api.Update g.snake)))
                engine := g'.engine }
      ∧ api.SnakeCell (api.Update g.snake) p.x p.y = false ∧ p ∉ g.obstacles
      ∧ p ∉ g.slowdowns.erase (Game.headCell api (api.Update g.snake))
      ∧ p ∉ g.speedups ∧ p ∉ g.food_points
      ∧ ∃ pre, g.engine = pre ++ p :: g'.engine := by
  rw [Game.Update_slowdown api g halive hfood hobst hslow] at hu
  split at hu
  · exact absurd hu (by simp)
  · rename_i g3 hg3
    simp only [Option.some.injEq] at hu
    obtain ⟨p, e, a, b, c, d, f, pre, hpre⟩ := Game.PlaceGridItem_slowdown api _ _ g3 hg3
    refine ⟨p, ?_, a, b, c, d, f, pre, ?_⟩
    · rw [← hu]
      conv_lhs => rw [e]
    · rw [← hu]; exact hpre

/-- The state after a speedup tick that terminates. -/
theorem Game.Update_speedup_some (api : SnakeApi F R) (g g' : Game F R)
    (halive : g.snake.alive = true)
    (hfood : Game.headCell api (api.Update g.snake) ∉ g.food_points)
    (hobst : Game.headCell api (api.Update g.snake) ∉ g.obstacles)
    (hslow : Game.headCell api (api.Update g.snake) ∉ g.slowdowns)
    (hfast : Game.headCell api (api.Update g.snake) ∈ g.speedups)
    (hu : g.Update api = some g') :
    ∃ p, g' = { g with
                snake := { api.Update g.snake with
                           speed := api.addStep (api.Update g.snake).speed }
                speed_ups := wrapInt (g.speed_ups + 1)
                speedups :=
                  insert p (g.speedups.erase (Game.headCell api (api.Update g.snake)))
                engine := g'.engine }
      ∧ api.SnakeCell (api.Update g.snake) p.x p.y = false ∧ p ∉ g.obstacles
      ∧ p ∉ g.slowdowns
      ∧ p ∉ g.speedups.erase (Game.headCell api (api.Update g.snake))
      ∧ p ∉ g.food_points
      ∧ ∃ pre, g.engine = pre ++ p :: g'.engine := by
  rw [Game.Update_speedup api g halive hfood hobst hslow hfast] at hu
  split at hu
  · exact absurd hu (by simp)
  · rename_i g3 hg3
    simp only [Option.some.injEq] at hu
    obtain ⟨p, e, a, b, c, d, f, pre, hpre⟩ := Game.PlaceGridItem_speedup api _ _ g3 hg3
    refine ⟨p, ?_, a, b, c, d, f, pre, ?_⟩
    · rw [← hu]
      conv_lhs => rw [e]
    · rw [← hu]; exact hpre

/-! ## Set lemmas for a replaced item -/

theorem disjoint_replace_right {s t : Finset SDL_Point} (p h : SDL_Point)
    (hp : p ∉ s) (hd : Disjoint s t) : Disjoint s (insert p (t.erase h)) := by
  rw [Finset.disjoint_insert_right]
  exact ⟨hp, Finset.disjoint_of_subset_right (Finset.erase_subset _ _) hd⟩

theorem disjoint_replace_left {s t : Finset SDL_Point} (p h : SDL_Point)
    (hp : p ∉ t) (hd : Disjoint s t) : Disjoint (insert p (s.erase h)) t := by
  rw [Finset.disjoint_insert_left]
  exact ⟨hp, Finset.disjoint_of_subset_left (Finset.erase_subset _ _) hd⟩

theorem card_replace {s : Finset SDL_Point} (p h : SDL_Point)
    (hh : h ∈ s) (hp : p ∉ s.erase h) : (insert p (s.erase h)).card = s.card := by
  rw [Finset.card_insert_of_not_mem hp, Finset.card_erase_of_mem hh]
  have : 0 < s.card := Finset.card_pos.mpr ⟨h, hh⟩
  omega

/-! ## The rounding of the float model -/

/-- The count of `bitLength` is the number of binary digits: with enough fuel
a positive `n` lies between `2 ^ (len - 1)` and `2 ^ len`. -/
theorem bitLength_spec (fuel n : Nat) (hn : n ≠ 0) (h : n < 2 ^ fuel) :
    2 ^ (bitLength fuel n - 1) ≤ n ∧ n < 2 ^ bitLength fuel n := by
  induction fuel generalizing n with
  | zero => simp at h; exact absurd h hn
  | succ fuel ih =>
    simp only [bitLength, hn, if_false]
    by_cases h2 : n / 2 = 0
    · have h1 : n = 1 := by omega
      subst h1
      cases fuel <;> simp [bitLength]
    · have hlt : n / 2 < 2 ^ fuel := by
        rw [pow_succ] at h
        omega
      obtain ⟨a, b⟩ := ih (n / 2) h2 hlt
      have hpos : 0 < bitLength fuel (n / 2) := by
        cases fuel with
        | zero => simp at hlt; exact absurd hlt h2
        | succ f => simp [bitLength, h2]
      constructor
      · simp only [Nat.add_sub_cancel]
        have : bitLength fuel (n / 2) = (bitLength fuel (n / 2) - 1) + 1 := by omega
        rw [this, pow_succ]
        omega
      · rw [pow_succ]
        omega

/-- The rounded quotient is a nearest one: scaled back by `2 ^ k` it differs
from `m` by at most half of `2 ^ k`. -/
theorem roundShift_near (m k : Nat) :
    2 * (roundShift m k * 2 ^ k) ≤ 2 * m + 2 ^ k
      ∧ 2 * m ≤ 2 * (roundShift m k * 2 ^ k) + 2 ^ k := by
  have hdm := Nat.div_add_mod m (2 ^ k)
  have hmod : m % 2 ^ k < 2 ^ k := Nat.mod_lt m (by positivity)
  have hmul : (m / 2 ^ k + 1) * 2 ^ k = 2 ^ k * (m / 2 ^ k) + 2 ^ k := by ring
  have hmul2 : m / 2 ^ k * 2 ^ k = 2 ^ k * (m / 2 ^ k) := by ring
  cases k with
  | zero =>
    simp only [roundShift, pow_zero, Nat.mod_one, Nat.div_one, Nat.zero_sub]
    have h1 : ¬ (1 < 0 ∨ ((0 : Nat) = 1 ∧ m % 2 = 1)) := by omega
    simp only [h1, if_false]
    omega
  | succ k =>
    have hpow : 2 ^ (k + 1) = 2 * 2 ^ k := by rw [pow_succ]; ring
    simp only [roundShift, Nat.add_sub_cancel]
    split_ifs with hup
    · rw [hmul]
      rcases hup with hup | ⟨hup, _⟩ <;> omega
    · rw [hmul2]
      simp only [not_or, not_and] at hup
      omega

/-- The exponent that `roundNearestEven` picks, and its result: exact when no
digit is cut off, else the quotient rounded to a nearest one. -/
theorem roundNearestEven_eq (p : Nat) (qmin : Int) (m : Nat) (e : Int) :
    (roundNearestEven p qmin m e).2 = max (e + (bitLength 2048 m : Int) - (p : Int)) qmin
      ∧ ((roundNearestEven p qmin m e).2 ≤ e →
          (roundNearestEven p qmin m e).1
            = m * 2 ^ (e - (roundNearestEven p qmin m e).2).toNat)
      ∧ (e < (roundNearestEven p qmin m e).2 →
          (roundNearestEven p qmin m e).1
            = roundShift m ((roundNearestEven p qmin m e).2 - e).toNat) := by
  have hq : (roundNearestEven p qmin m e).2
      = max (e + (bitLength 2048 m : Int) - (p : Int)) qmin := by
    simp only [roundNearestEven]
    split_ifs <;> rfl
  refine ⟨hq, ?_, ?_⟩
  · intro hle
    rw [hq] at hle ⊢
    simp only [roundNearestEven, hle, if_true]
  · intro hlt
    rw [hq] at hlt ⊢
    have hnle : ¬ max (e + (bitLength 2048 m : Int) - (p : Int)) qmin ≤ e := by omega
    simp only [roundNearestEven, hnle, if_false]

/-! ## When a replacement is found -/

theorem wrapInt_of_range (n : Int) (hlo : -2147483648 ≤ n) (hhi : n ≤ 2147483647) :
    wrapInt n = n := by
  unfold wrapInt
  rw [Int.emod_eq_of_lt (by omega) (by omega)]
  omega

/-- The single-point search uses up the samples exactly when every sample is
occupied. -/
theorem Game.GenerateGridPoint_eq_none_iff (api : SnakeApi F R) (g : Game F R) :
    g.GenerateGridPoint api = none ↔ ∀ q ∈ g.engine, g.Occupied api q := by
  unfold Game.GenerateGridPoint
  constructor
  · intro h
    split at h
    · rename_i hs
      intro q hq
      exact (Game.cellFree_eq_false_iff api g q).mp
        ((Game.searchPoint_eq_none_iff api g _).mp hs q hq)
    · exact absurd h (by simp)
  · intro h
    have hs : g.searchPoint api g.engine = none :=
      (Game.searchPoint_eq_none_iff api g _).mpr
        (fun q hq => (Game.cellFree_eq_false_iff api g q).mpr (h q hq))
    rw [hs]

/-- `PlaceGridItem` does not terminate on the samples exactly when each of
them is occupied in the state with the old point erased. -/
theorem Game.PlaceGridItem_eq_none_iff (api : SnakeApi F R) (pt : SDL_Point)
    (kind : GridItemType) (g : Game F R) :
    g.PlaceGridItem api pt kind = none ↔
      ∀ q ∈ g.engine, (g.eraseItem pt kind).Occupied api q := by
  cases kind with
  | giObstacle =>
    have key : Game.GenerateGridPoint api (g.eraseItem pt .giObstacle) = none ↔
        ∀ q ∈ g.engine, (g.eraseItem pt .giObstacle).Occupied api q :=
      Game.GenerateGridPoint_eq_none_iff api _
    rw [← key]
    simp only [Game.PlaceGridItem, Game.eraseItem]
    split <;> simp_all
  | giSlowdown =>
    have key : Game.GenerateGridPoint api (g.eraseItem pt .giSlowdown) = none ↔
        ∀ q ∈ g.engine, (g.eraseItem pt .giSlowdown).Occupied api q :=
      Game.GenerateGridPoint_eq_none_iff api _
    rw [← key]
    simp only [Game.PlaceGridItem, Game.eraseItem]
    split <;> simp_all
  | giSpeedup =>
    have key : Game.GenerateGridPoint api (g.eraseItem pt .giSpeedup) = none ↔
        ∀ q ∈ g.engine, (g.eraseItem pt .giSpeedup).Occupied api q :=
      Game.GenerateGridPoint_eq_none_iff api _
    rw [← key]
    simp only [Game.PlaceGridItem, Game.eraseItem]
    split <;> simp_all
  | giFood =>
    have key : Game.GenerateGridPoint api (g.eraseItem pt .giFood) = none ↔
        ∀ q ∈ g.engine, (g.eraseItem pt .giFood).Occupied api q :=
      Game.GenerateGridPoint_eq_none_iff api _
    rw [← key]
    simp only [Game.PlaceGridItem, Game.eraseItem]
    split <;> simp_all

/-- The food tick does not terminate exactly when every sample is occupied in
the state with the agent advanced and the head cell erased from Food. -/
theorem Game.Update_food_eq_none_iff (api : SnakeApi F R) (g : Game F R)
    (halive : g.snake.alive = true)
    (hfood : Game.headCell api (api.Update g.snake) ∈ g.food_points) :
    g.Update api = none ↔
      ∀ q ∈ g.engine,
        Game.Occupied api
          (Game.eraseItem { g with snake := api.Update g.snake }
            (Game.headCell api (api.Update g.snake)) .giFood) q := by
  rw [Game.Update_food api g halive hfood]
  have key := Game.PlaceGridItem_eq_none_iff api (Game.headCell api (api.Update g.snake))
    .giFood { g with snake := api.Update g.snake, score := wrapInt (g.score + 1) }
  cases hp : Game.PlaceGridItem api (Game.headCell api (api.Update g.snake)) .giFood
      { g with snake := api.Update g.snake, score := wrapInt (g.score + 1) } with
  | none =>
    rw [hp] at key
    simp only [true_iff] at key ⊢
    exact key
  | some g3 =>
    rw [hp] at key
    simp only [false_iff, reduceCtorEq] at key ⊢
    exact key

/-- The slowdown tick does not terminate exactly when every sample is
occupied in the state with the agent advanced and the head cell erased from
Slowdowns. -/
theorem Game.Update_slowdown_eq_none_iff (api : SnakeApi F R) (g : Game F R)
    (halive : g.snake.alive = true)
    (hfood : Game.headCell api (api.Update g.snake) ∉ g.food_points)
    (hobst : Game.headCell api (api.Update g.snake) ∉ g.obstacles)
    (hslow : Game.headCell api (api.Update g.snake) ∈ g.slowdowns) :
    g.Update api = none ↔
      ∀ q ∈ g.engine,
        Game.Occupied api
          (Game.eraseItem { g with snake := api.Update g.snake }
            (Game.headCell api (api.Update g.snake)) .giSlowdown) q := by
  rw [Game.Update_slowdown api g halive hfood hobst hslow]
  have key := Game.PlaceGridItem_eq_none_iff api (Game.headCell api (api.Update g.snake))
    .giSlowdown
    { g with snake := api.Update g.snake, slow_downs := wrapInt (g.slow_downs + 1) }
  cases hp : Game.PlaceGridItem api (Game.headCell api (api.Update g.snake)) .giSlowdown
      { g with snake := api.Update g.snake, slow_downs := wrapInt (g.slow_downs + 1) } with
  | none =>
    rw [hp] at key
    simp only [true_iff] at key ⊢
    exact key
  | some g3 =>
    rw [hp] at key
    simp only [false_iff, reduceCtorEq] at key ⊢
    exact key

/-- The speedup tick does not terminate exactly when every sample is occupied
in the state with the agent advanced and the head cell erased from
Speedups. -/
theorem Game.Update_speedup_eq_none_iff (api : SnakeApi F R) (g : Game F R)
    (halive : g.snake.alive = true)
    (hfood : Game.headCell api (api.Update g.snake) ∉ g.food_points)
    (hobst : Game.headCell api (api.Update g.snake) ∉ g.obstacles)
    (hslow : Game.headCell api (api.Update g.snake) ∉ g.slowdowns)
    (hfast : Game.headCell api (api.Update g.snake) ∈ g.speedups) :
    g.Update api = none ↔
      ∀ q ∈ g.engine,
        Game.Occupied api
          (Game.eraseItem { g with snake := api.Update g.snake }
            (Game.headCell api (api.Update g.snake)) .giSpeedup) q := by
  rw [Game.Update_speedup api g halive hfood hobst hslow hfast]
  have key := Game.PlaceGridItem_eq_none_iff api (Game.headCell api (api.Update g.snake))
    .giSpeedup
    { g with snake := api.Update g.snake, speed_ups := wrapInt (g.speed_ups + 1) }
  cases hp : Game.PlaceGridItem api (Game.headCell api (api.Update g.snake)) .giSpeedup
      { g with snake := api.Update g.snake, speed_ups := wrapInt (g.speed_ups + 1) } with
  | none =>
    rw [hp] at key
    simp only [true_iff] at key ⊢
    exact key
  | some g3 =>
    rw [hp] at key
    simp only [false_iff, reduceCtorEq] at key ⊢
    exact key

/-- A function into `Option` that is not `none` on an input has a value
there. -/
theorem exists_of_ne_none {α : Type} (o : Option α) (h : o ≠ none) : ∃ a, o = some a := by
  cases o with
  | none => exact absurd rfl h
  | some a => exact ⟨a, rfl⟩

/-! ## C1: the item sets stay pairwise disjoint -/

/-- C1: pairwise disjointness of the four item sets is an invariant of the
tick: if Obstacles, Slowdowns, Speedups and Food are pairwise disjoint and
`Game::Update` terminates on the samples of the engine, the four sets of the
resulting state are pairwise disjoint again. -/
theorem C1_update_preserves_items_disjoint (api : SnakeApi F R) (g g' : Game F R)
    (hd : g.ItemsDisjoint) (hu : g.Update api = some g') : g'.ItemsDisjoint := by
  obtain ⟨d1, d2, d3, d4, d5, d6⟩ := hd
  cases halive : g.snake.alive with
  | false =>
    rw [Game.Update_dead api g halive] at hu
    simp only [Option.some.injEq] at hu
    subst hu
    exact ⟨d1, d2, d3, d4, d5, d6⟩
  | true =>
    by_cases hfood : Game.headCell api (api.Update g.snake) ∈ g.food_points
    · obtain ⟨p, e, _, b, c, d, _, _⟩ := Game.Update_food_some api g g' halive hfood hu
      rw [e]
      exact ⟨d1, d2, disjoint_replace_right p _ b d3, d4,
        disjoint_replace_right p _ c d5, disjoint_replace_right p _ d d6⟩
    · by_cases hobst : Game.headCell api (api.Update g.snake) ∈ g.obstacles
      · rw [Game.Update_obstacle api g halive hfood hobst] at hu
        simp only [Option.some.injEq] at hu
        subst hu
        exact ⟨d1, d2, d3, d4, d5, d6⟩
      · by_cases hslow : Game.headCell api (api.Update g.snake) ∈ g.slowdowns
        · obtain ⟨p, e, _, b, _, c, d, _⟩ :=
            Game.Update_slowdown_some api g g' halive hfood hobst hslow hu
          rw [e]
          exact ⟨disjoint_replace_right p _ b d1, d2, d3,
            disjoint_replace_left p _ c d4, disjoint_replace_left p _ d d5, d6⟩
        · by_cases hfast : Game.headCell api (api.Update g.snake) ∈ g.speedups
          · obtain ⟨p, e, _, b, c, _, d, _⟩ :=
              Game.Update_speedup_some api g g' halive hfood hobst hslow hfast hu
            rw [e]
            exact ⟨d1, disjoint_replace_right p _ b d2, d3,
              disjoint_replace_right p _ c d4, d5, disjoint_replace_left p _ d d6⟩
          · rw [Game.Update_none api g halive hfood hobst hslow hfast] at hu
            simp only [Option.some.injEq] at hu
            subst hu
            exact ⟨d1, d2, d3, d4, d5, d6⟩

/-- C1 at the food scenario: the sets of `refGame` are pairwise disjoint, its
tick ends in `refGameFed`, whose sets are pairwise disjoint. -/
theorem C1_update_preserves_items_disjoint_witness :
    refGame.ItemsDisjoint ∧ refGame.Update refApi = some refGameFed
      ∧ refGameFed.ItemsDisjoint :=
  ⟨by unfold Game.ItemsDisjoint; decide, by decide,
    C1_update_preserves_items_disjoint refApi refGame refGameFed
      (by unfold Game.ItemsDisjoint; decide) (by decide)⟩

/-! ## C2: the item sets and the cells of the agent -/

/-- C2 fails as stated.  In `obstGame` no item is on a cell of the agent, the
tick moves the head onto the obstacle (5,4), and afterwards that obstacle is
on the head cell.  In `overlapGame`, where (5,4) is both food and speedup,
no item is on a cell of the agent either, the tick eats the food, and
afterwards the speedup (5,4) is on the head cell. -/
theorem C2_counterexample :
    (obstGame.ItemsOffSnake refApi
      ∧ ∃ g', obstGame.Update refApi = some g'
          ∧ Game.headCell refApi (refApi.Update obstGame.snake) ∈ obstGame.obstacles
          ∧ ¬ g'.ItemsOffSnake refApi)
    ∧ (overlapGame.ItemsOffSnake refApi
      ∧ ∃ g', overlapGame.Update refApi = some g' ∧ ¬ g'.ItemsOffSnake refApi) := by
  refine ⟨⟨by unfold Game.ItemsOffSnake; decide, _, rfl, by decide, ?_⟩,
    ⟨by unfold Game.ItemsOffSnake; decide, _, rfl, ?_⟩⟩
  · unfold Game.ItemsOffSnake; decide
  · unfold Game.ItemsOffSnake; decide

/-- An item cell other than the new head is no cell of the advanced agent,
when the advance occupies nothing but former cells and the new head. -/
theorem Game.off_after_advance (api : SnakeApi F R) (g : Game F R)
    (hadv : ∀ x y, api.SnakeCell (api.Update g.snake) x y = true →
      api.SnakeCell g.snake x y = true
        ∨ SDL_Point.mk x y = Game.headCell api (api.Update g.snake))
    (hoff : g.ItemsOffSnake api) (q : SDL_Point)
    (hq : q ∈ g.obstacles ∪ g.slowdowns ∪ g.speedups ∪ g.food_points)
    (hne : q ≠ Game.headCell api (api.Update g.snake)) :
    api.SnakeCell (api.Update g.snake) q.x q.y = false := by
  cases hc : api.SnakeCell (api.Update g.snake) q.x q.y with
  | false => rfl
  | true =>
    rcases hadv q.x q.y hc with h | h
    · rw [hoff q hq] at h
      exact absurd h (by simp)
    · exact absurd h hne

/-- C2, amended: let the four item sets be pairwise disjoint and hold no cell
of the agent, and let the tick not move the head of a living agent onto an
obstacle.  If the agent's advance occupies no cell besides its former cells
and its new head, and neither growing nor a change of speed alters its
cells, then after `Game::Update` no coordinate of an item set is a cell of
the agent. -/
theorem C2_update_preserves_items_off_snake (api : SnakeApi F R) (g g' : Game F R)
    (hadv : ∀ x y, api.SnakeCell (api.Update g.snake) x y = true →
      api.SnakeCell g.snake x y = true
        ∨ SDL_Point.mk x y = Game.headCell api (api.Update g.snake))
    (hgrow : ∀ (s : Snake F R) (x y : Int),
      api.SnakeCell (api.GrowBody s) x y = api.SnakeCell s x y)
    (hspeed : ∀ (s : Snake F R) (v : F) (x y : Int),
      api.SnakeCell { s with speed := v } x y = api.SnakeCell s x y)
    (hd : g.ItemsDisjoint) (hoff : g.ItemsOffSnake api)
    (hno : g.snake.alive = true →
      Game.headCell api (api.Update g.snake) ∉ g.obstacles)
    (hu : g.Update api = some g') : g'.ItemsOffSnake api := by
  obtain ⟨_, _, d3, d4, d5, d6⟩ := hd
  have key := Game.off_after_advance api g hadv hoff
  cases halive : g.snake.alive with
  | false =>
    rw [Game.Update_dead api g halive] at hu
    simp only [Option.some.injEq] at hu
    subst hu
    exact hoff
  | true =>
    have hobst := hno halive
    by_cases hfood : Game.headCell api (api.Update g.snake) ∈ g.food_points
    · obtain ⟨p, e, a, _, _, _, _, _⟩ := Game.Update_food_some api g g' halive hfood hu
      rw [e]
      intro q hq
      simp only [hspeed, hgrow]
      simp only [Finset.mem_union, Finset.mem_insert, Finset.mem_erase] at hq
      rcases hq with ((hq | hq) | hq) | hq | hq
      · exact key q (by simp [hq]) (fun h => Finset.disjoint_left.mp d3 hq (h ▸ hfood))
      · exact key q (by simp [hq]) (fun h => Finset.disjoint_left.mp d5 hq (h ▸ hfood))
      · exact key q (by simp [hq]) (fun h => Finset.disjoint_left.mp d6 hq (h ▸ hfood))
      · rw [hq]; exact a
      · exact key q (by simp [hq.2]) hq.1
    · by_cases hslow : Game.headCell api (api.Update g.snake) ∈ g.slowdowns
      · obtain ⟨p, e, a, _, _, _, _, _⟩ :=
          Game.Update_slowdown_some api g g' halive hfood hobst hslow hu
        rw [e]
        intro q hq
        simp only [hspeed]
        simp only [Finset.mem_union, Finset.mem_insert, Finset.mem_erase] at hq
        rcases hq with ((hq | hq | hq) | hq) | hq
        · exact key q (by simp [hq]) (fun h => hobst (h ▸ hq))
        · rw [hq]; exact a
        · exact key q (by simp [hq.2]) hq.1
        · exact key q (by simp [hq]) (fun h => Finset.disjoint_left.mp d4 hslow (h ▸ hq))
        · exact key q (by simp [hq]) (fun h => hfood (h ▸ hq))
      · by_cases hfast : Game.headCell api (api.Update g.snake) ∈ g.speedups
        · obtain ⟨p, e, a, _, _, _, _, _⟩ :=
            Game.Update_speedup_some api g g' halive hfood hobst hslow hfast hu
          rw [e]
          intro q hq
          simp only [hspeed]
          simp only [Finset.mem_union, Finset.mem_insert, Finset.mem_erase] at hq
          rcases hq with ((hq | hq) | hq | hq) | hq
          · exact key q (by simp [hq]) (fun h => hobst (h ▸ hq))
          · exact key q (by simp [hq]) (fun h => hslow (h ▸ hq))
          · rw [hq]; exact a
          · exact key q (by simp [hq.2]) hq.1
          · exact key q (by simp [hq]) (fun h => hfood (h ▸ hq))
        · rw [Game.Update_none api g halive hfood hobst hslow hfast] at hu
          simp only [Option.some.injEq] at hu
          subst hu
          intro q hq
          have hq2 := hq
          simp only [Finset.mem_union] at hq2
          refine key q hq (fun h => ?_)
          rcases hq2 with ((hq2 | hq2) | hq2) | hq2
          · exact hobst (h ▸ hq2)
          · exact hslow (h ▸ hq2)
          · exact hfast (h ▸ hq2)
          · exact hfood (h ▸ hq2)

/-! ## The concrete agent obeys the laws assumed of the agent -/

theorem refApi_advance (s : Snake Int RefBody) (x y : Int)
    (h : refApi.SnakeCell (refApi.Update s) x y = true) :
    refApi.SnakeCell s x y = true
      ∨ SDL_Point.mk x y = Game.headCell refApi (refApi.Update s) := by
  simp only [refApi, Game.headCell, Bool.or_eq_true, decide_eq_true_eq,
    SDL_Point.mk.injEq] at h ⊢
  rcases h with h | h
  · exact Or.inr h
  · left
    split at h
    · rcases List.mem_cons.mp h with h | h
      · simp only [SDL_Point.mk.injEq] at h
        exact Or.inl h
      · exact Or.inr h
    · rcases List.mem_cons.mp (List.dropLast_subset _ h) with h | h
      · simp only [SDL_Point.mk.injEq] at h
        exact Or.inl h
      · exact Or.inr h

theorem refApi_grow (s : Snake Int RefBody) (x y : Int) :
    refApi.SnakeCell (refApi.GrowBody s) x y = refApi.SnakeCell s x y := rfl

theorem refApi_speed (s : Snake Int RefBody) (v : Int) (x y : Int) :
    refApi.SnakeCell { s with speed := v } x y = refApi.SnakeCell s x y := rfl

theorem refApi_head (s : Snake Int RefBody) :
    refApi.SnakeCell s (refApi.toInt s.head_x) (refApi.toInt s.head_y) = true := by
  simp [refApi]

/-- C2, amended, at the food scenario: `refGame` meets every hypothesis and
no item of `refGameFed` is on a cell of the agent. -/
theorem C2_update_preserves_items_off_snake_witness :
    refGame.ItemsDisjoint ∧ refGame.ItemsOffSnake refApi
      ∧ refGame.Update refApi = some refGameFed ∧ refGameFed.ItemsOffSnake refApi :=
  ⟨by unfold Game.ItemsDisjoint; decide, by unfold Game.ItemsOffSnake; decide, by decide,
    C2_update_preserves_items_off_snake refApi refGame refGameFed
      (fun x y h => refApi_advance refGame.snake x y h) refApi_grow refApi_speed
      (by unfold Game.ItemsDisjoint; decide) (by unfold Game.ItemsOffSnake; decide)
      (fun _ => by decide) (by decide)⟩

/-! ## C3: the batch contract -/

/-- C3: for a count `num` with `0 ≤ num` (and below `2 ^ 64`, as every `int`
is) and an engine whose samples are all inside the grid, a call
`GenerateGridPoints(num)` that terminates returns a set of exactly `num`
coordinates, each inside `[0,width-1] x [0,height-1]` and each neither a snake
cell nor a member of Obstacles, Slowdowns, Speedups or Food at call time;
the call moves nothing but the engine. -/
theorem C3_generateGridPoints_contract (api : SnakeApi F R) (width height num : Int)
    (g : Game F R) (pts : Finset SDL_Point) (g' : Game F R)
    (h0 : 0 ≤ num) (h64 : num < 2 ^ 64)
    (hin : ∀ s ∈ g.engine, InGrid width height s)
    (hr : g.GenerateGridPoints api num = some (pts, g')) :
    (pts.card : Int) = num
      ∧ (∀ p ∈ pts, InGrid width height p ∧ ¬ g.Occupied api p)
      ∧ g' = { g with engine := g'.engine } := by
  obtain ⟨k1, k2, k3⟩ := Game.generateRounds_eq_some api num (InGrid width height)
    (g.engine.length + 1) ∅ g pts g' hin (by simp) (by simp) hr
  refine ⟨?_, ?_, k3⟩
  · rw [k1]; exact toSizeT_of_nonneg num h0 h64
  · intro p hp
    exact ⟨(k2 p hp).1, (Game.cellFree_eq_true_iff api g p).mp (k2 p hp).2⟩

/-- C3 on a 10 x 10 grid: a batch of two on `batchGame` rejects the food
cell, draws (7,7) twice, runs a second round for the shortfall and returns
the two coordinates (0,9) and (7,7). -/
theorem C3_generateGridPoints_contract_witness :
    batchGame.GenerateGridPoints refApi 2
        = some ({SDL_Point.mk 0 9, SDL_Point.mk 7 7},
            { batchGame with engine := [SDL_Point.mk 6 6] })
      ∧ ((({SDL_Point.mk 0 9, SDL_Point.mk 7 7} : Finset SDL_Point).card : Int) = 2
        ∧ (∀ p ∈ ({SDL_Point.mk 0 9, SDL_Point.mk 7 7} : Finset SDL_Point),
            InGrid 10 10 p ∧ ¬ batchGame.Occupied refApi p)
        ∧ ({ batchGame with engine := [SDL_Point.mk 6 6] } : Game Int RefBody)
            = { batchGame with engine := [SDL_Point.mk 6 6] }) :=
  ⟨rfl,
    C3_generateGridPoints_contract refApi 10 10 2 batchGame _ _ (by decide) (by decide)
      (by unfold InGrid; decide) rfl⟩

/-! ## C4: the single-point search -/

/-- C4: `GenerateGridPoint` returns `p` and leaves the engine of `g'` exactly
when the samples of the engine are a run of occupied samples, then `p`, then
the samples left, `p` is unoccupied (no snake cell, in none of Obstacles,
Slowdowns, Speedups, Food) and nothing but the engine has moved: the point
returned is the first sample that fails all five occupancy checks, and it is
never an occupied cell.  The search uses up the samples exactly when all of
them are occupied. -/
theorem C4_generateGridPoint_first_free (api : SnakeApi F R) (g : Game F R) :
    (∀ (p : SDL_Point) (g' : Game F R),
      g.GenerateGridPoint api = some (p, g') ↔
        ∃ pre, g.engine = pre ++ p :: g'.engine ∧ (∀ q ∈ pre, g.Occupied api q)
          ∧ ¬ g.Occupied api p ∧ g' = { g with engine := g'.engine })
    ∧ (g.GenerateGridPoint api = none ↔ ∀ q ∈ g.engine, g.Occupied api q) := by
  constructor
  · intro p g'
    constructor
    · intro h
      obtain ⟨e, ⟨pre, hpre, hocc⟩, hfree⟩ := Game.GenerateGridPoint_eq_some api g p g' h
      exact ⟨pre, hpre, fun q hq => (Game.cellFree_eq_false_iff api g q).mp (hocc q hq),
        (Game.cellFree_eq_true_iff api g p).mp hfree, e⟩
    · rintro ⟨pre, hpre, hocc, hfree, e⟩
      have hs : g.searchPoint api g.engine = some (p, g'.engine) :=
        (Game.searchPoint_eq_some_iff api g _ _ _).mpr
          ⟨pre, hpre, fun q hq => (Game.cellFree_eq_false_iff api g q).mpr (hocc q hq),
            (Game.cellFree_eq_true_iff api g p).mpr hfree⟩
      unfold Game.GenerateGridPoint
      rw [hs, e]
  · unfold Game.GenerateGridPoint
    constructor
    · intro h
      split at h
      · rename_i hs
        intro q hq
        exact (Game.cellFree_eq_false_iff api g q).mp
          ((Game.searchPoint_eq_none_iff api g _).mp hs q hq)
      · exact absurd h (by simp)
    · intro h
      have hs : g.searchPoint api g.engine = none :=
        (Game.searchPoint_eq_none_iff api g _).mpr
          (fun q hq => (Game.cellFree_eq_false_iff api g q).mpr (h q hq))
      rw [hs]

/-- C4 on `refGame`: the samples (5,4) (food) and (1,1) (obstacle) are
rejected and (7,7) is returned. -/
theorem C4_generateGridPoint_first_free_witness :
    ∃ pre, refGame.engine = pre ++ SDL_Point.mk 7 7 :: [SDL_Point.mk 0 9]
      ∧ (∀ q ∈ pre, refGame.Occupied refApi q)
      ∧ ¬ refGame.Occupied refApi (SDL_Point.mk 7 7)
      ∧ ({ refGame with engine := [SDL_Point.mk 0 9] } : Game Int RefBody)
          = { refGame with engine := [SDL_Point.mk 0 9] } :=
  ((C4_generateGridPoint_first_free refApi refGame).1 (SDL_Point.mk 7 7)
    { refGame with engine := [SDL_Point.mk 0 9] }).mp (by decide)

/-! ## C5: a batch of none -/

/-- C5: `GenerateGridPoints(0)` returns the empty set and leaves the game,
its engine included, as it was: no sample is drawn and no search is run. -/
theorem C5_generateGridPoints_zero (api : SnakeApi F R) (g : Game F R) :
    g.GenerateGridPoints api 0 = some (∅, g) := by
  simp [Game.GenerateGridPoints, Game.generateRounds, toSizeT]

/-! ## C6: the tick on a dead agent -/

/-- C6: on a state whose agent is not alive `Game::Update` returns the state
unchanged (score, both hit counters, the four item sets, the agent and the
engine), and so does any number of further ticks. -/
theorem C6_update_dead_noop (api : SnakeApi F R) (g : Game F R)
    (hdead : g.snake.alive = false) :
    g.Update api = some g ∧ ∀ n : Nat, g.UpdateN api n = some g := by
  refine ⟨Game.Update_dead api g hdead, fun n => ?_⟩
  induction n with
  | zero => rfl
  | succ n ih => simp only [Game.UpdateN, Game.Update_dead api g hdead, ih]

/-- C6 on `deadGame`: one tick and three ticks leave it as it is. -/
theorem C6_update_dead_noop_witness :
    deadGame.snake.alive = false
      ∧ deadGame.Update refApi = some deadGame
      ∧ deadGame.UpdateN refApi 3 = some deadGame :=
  ⟨rfl, (C6_update_dead_noop refApi deadGame rfl).1,
    (C6_update_dead_noop refApi deadGame rfl).2 3⟩

/-! ## C7: the food tick, game state -/

/-- C7 fails as stated, in four ways.  With the score at `INT_MAX`
(`maxScoreGame`) the food tick leaves the score at `INT_MIN`, not one higher.
With only occupied samples to come (`starvedGame`) the food tick does not
terminate, so there is no state after it.  With an agent whose `SnakeCell`
leaves out the head (`bareApi`) the eaten food cell is generated again and is
in Food after the tick.  With an agent that has grown when the tick is over
(`eagerApi`, on `vacatedGame`) the new food lies on a cell of the agent. -/
theorem C7_counterexample :
    (maxScoreGame.snake.alive = true
      ∧ Game.headCell refApi (refApi.Update maxScoreGame.snake) ∈ maxScoreGame.food_points
      ∧ ∃ g', maxScoreGame.Update refApi = some g'
          ∧ g'.score = -2147483648 ∧ g'.score ≠ maxScoreGame.score + 1)
    ∧ (starvedGame.snake.alive = true
      ∧ Game.headCell refApi (refApi.Update starvedGame.snake) ∈ starvedGame.food_points
      ∧ starvedGame.Update refApi = none)
    ∧ (refGame.snake.alive = true
      ∧ Game.headCell bareApi (bareApi.Update refGame.snake) ∈ refGame.food_points
      ∧ ∃ g', refGame.Update bareApi = some g'
          ∧ Game.headCell bareApi (bareApi.Update refGame.snake) ∈ g'.food_points)
    ∧ (vacatedGame.snake.alive = true
      ∧ Game.headCell eagerApi (eagerApi.Update vacatedGame.snake) ∈ vacatedGame.food_points
      ∧ ∃ g', vacatedGame.Update eagerApi = some g'
          ∧ ∃ p ∈ g'.food_points, eagerApi.SnakeCell g'.snake p.x p.y = true) :=
  ⟨⟨rfl, by decide, _, rfl, by decide, by decide⟩, ⟨rfl, by decide, by decide⟩,
    ⟨rfl, by decide, _, rfl, by decide⟩, ⟨rfl, by decide, _, rfl, by decide⟩⟩

/-- C7, amended: let the agent be alive and its advanced head cell `h` be in
Food.  If some sample still to come is unoccupied once the agent has
advanced and `h` is erased from Food, `Game::Update` terminates; the score is
then the incremented 32-bit `int` (one higher for a score that is an `int`
below `INT_MAX`); Food is the old Food without `h` plus one coordinate `p`;
`p` is no cell of the agent as it is when `p` is generated (advanced, not yet
grown) and is in none of Obstacles, Slowdowns, Speedups and the rest of Food;
if `h` is a cell of the advanced agent, then `p` is not `h`, `h` is no longer
in Food and `p` is the one coordinate of Food that was not in it before;
both hit counters and the other three sets are unchanged.  If every sample
is occupied, the tick does not terminate. -/
theorem C7_food_tick_state (api : SnakeApi F R) (g : Game F R)
    (halive : g.snake.alive = true)
    (hfood : Game.headCell api (api.Update g.snake) ∈ g.food_points) :
    ((∃ q ∈ g.engine,
        ¬ Game.Occupied api
            (Game.eraseItem { g with snake := api.Update g.snake }
              (Game.headCell api (api.Update g.snake)) .giFood) q) →
      ∃ g' p, g.Update api = some g'
        ∧ g'.score = wrapInt (g.score + 1)
        ∧ (-2147483648 ≤ g.score → g.score < 2147483647 → g'.score = g.score + 1)
        ∧ g'.food_points
            = insert p (g.food_points.erase (Game.headCell api (api.Update g.snake)))
        ∧ api.SnakeCell (api.Update g.snake) p.x p.y = false
        ∧ p ∉ g.obstacles ∧ p ∉ g.slowdowns ∧ p ∉ g.speedups
        ∧ p ∉ g.food_points.erase (Game.headCell api (api.Update g.snake))
        ∧ (api.SnakeCell (api.Update g.snake)
              (Game.headCell api (api.Update g.snake)).x
              (Game.headCell api (api.Update g.snake)).y = true →
            p ≠ Game.headCell api (api.Update g.snake)
              ∧ Game.headCell api (api.Update g.snake) ∉ g'.food_points
              ∧ g'.food_points \ g.food_points = {p})
        ∧ g'.slow_downs = g.slow_downs ∧ g'.speed_ups = g.speed_ups
        ∧ g'.obstacles = g.obstacles ∧ g'.slowdowns = g.slowdowns
        ∧ g'.speedups = g.speedups)
    ∧ ((∀ q ∈ g.engine,
          Game.Occupied api
            (Game.eraseItem { g with snake := api.Update g.snake }
              (Game.headCell api (api.Update g.snake)) .giFood) q) →
        g.Update api = none) := by
  refine ⟨?_, (Game.Update_food_eq_none_iff api g halive hfood).mpr⟩
  rintro ⟨q, hq, hfree⟩
  obtain ⟨g', hu⟩ := exists_of_ne_none (g.Update api)
    (fun hn => hfree ((Game.Update_food_eq_none_iff api g halive hfood).mp hn q hq))
  obtain ⟨p, e, a, b, c, d, f, _⟩ := Game.Update_food_some api g g' halive hfood hu
  have hfp : g'.food_points
      = insert p (g.food_points.erase (Game.headCell api (api.Update g.snake))) := by
    rw [e]
  have hsc : g'.score = wrapInt (g.score + 1) := by rw [e]
  refine ⟨g', p, hu, hsc, ?_, hfp, a, b, c, d, f, ?_, by rw [e], by rw [e], by rw [e],
    by rw [e], by rw [e]⟩
  · intro hlo hhi
    rw [hsc]
    exact wrapInt_of_range _ (by omega) (by omega)
  · intro hhead
    have hne : p ≠ Game.headCell api (api.Update g.snake) := by
      intro h
      rw [h, hhead] at a
      exact absurd a (by simp)
    have hnew : p ∉ g.food_points := fun h => f (Finset.mem_erase.mpr ⟨hne, h⟩)
    refine ⟨hne, ?_, ?_⟩
    · rw [hfp]
      simp only [Finset.mem_insert, Finset.mem_erase, not_or, not_and]
      exact ⟨fun h => hne h.symm, fun h => absurd rfl h⟩
    · rw [hfp]
      ext r
      simp only [Finset.mem_sdiff, Finset.mem_insert, Finset.mem_erase,
        Finset.mem_singleton]
      constructor
      · rintro ⟨h1 | h1, h2⟩
        · exact h1
        · exact absurd h1.2 h2
      · rintro rfl
        exact ⟨Or.inl rfl, hnew⟩

/-- C7, amended, on the food scenario: the sample (7,7) of `refGame` is
unoccupied, the tick terminates in `refGameFed`, the score is 1, the new food
is (7,7), and the head cell (5,4), a cell of the agent, is out of Food. -/
theorem C7_food_tick_state_witness :
    refGame.Update refApi = some refGameFed
      ∧ refGameFed.score = refGame.score + 1
      ∧ refGameFed.food_points = {SDL_Point.mk 7 7}
      ∧ Game.headCell refApi (refApi.Update refGame.snake) ∉ refGameFed.food_points := by
  obtain ⟨g', p, hu, _, hs, hf, _, _, _, _, _, hh, _⟩ :=
    (C7_food_tick_state refApi refGame rfl (by decide)).1
      ⟨SDL_Point.mk 7 7, by decide, by unfold Game.Occupied; decide⟩
  have hg : g' = refGameFed := by
    have h2 : refGame.Update refApi = some refGameFed := by decide
    rw [h2] at hu
    exact (Option.some.inj hu).symm
  subst hg
  exact ⟨by decide, hs (by decide) (by decide), by decide,
    (hh (refApi_head (refApi.Update refGame.snake))).2.1⟩

/-! ## C8: the obstacle tick -/

/-- C8: let the agent be alive and its advanced head cell be in Obstacles and
not in Food.  Then `Game::Update` terminates, the agent is the advanced agent
with `alive = false`, so its speed is the speed it had after advancing (and
the speed before the tick when advancing leaves the speed alone); score, both
hit counters and the four item sets are as before, and the engine is
untouched: no sample is drawn, nothing respawns. -/
theorem C8_obstacle_tick (api : SnakeApi F R) (g : Game F R)
    (halive : g.snake.alive = true)
    (hfood : Game.headCell api (api.Update g.snake) ∉ g.food_points)
    (hobst : Game.headCell api (api.Update g.snake) ∈ g.obstacles) :
    ∃ g', g.Update api = some g'
      ∧ g'.snake = { api.Update g.snake with alive := false }
      ∧ g'.snake.alive = false
      ∧ g'.snake.speed = (api.Update g.snake).speed
      ∧ ((api.Update g.snake).speed = g.snake.speed → g'.snake.speed = g.snake.speed)
      ∧ g'.score = g.score ∧ g'.slow_downs = g.slow_downs ∧ g'.speed_ups = g.speed_ups
      ∧ g'.obstacles = g.obstacles ∧ g'.slowdowns = g.slowdowns
      ∧ g'.speedups = g.speedups ∧ g'.food_points = g.food_points
      ∧ g'.engine = g.engine :=
  ⟨_, Game.Update_obstacle api g halive hfood hobst, rfl, rfl, rfl, fun h => h, rfl, rfl,
    rfl, rfl, rfl, rfl, rfl, rfl⟩

/-- C8 on `obstGame`: the head steps on the obstacle (5,4); the tick ends
with the agent dead, speed 16 as before, and score, counters, item sets and
engine as before. -/
theorem C8_obstacle_tick_witness :
    ∃ g', obstGame.Update refApi = some g'
      ∧ g'.snake = { refApi.Update obstGame.snake with alive := false }
      ∧ g'.snake.alive = false
      ∧ g'.snake.speed = (refApi.Update obstGame.snake).speed
      ∧ ((refApi.Update obstGame.snake).speed = obstGame.snake.speed →
          g'.snake.speed = obstGame.snake.speed)
      ∧ g'.score = obstGame.score ∧ g'.slow_downs = obstGame.slow_downs
      ∧ g'.speed_ups = obstGame.speed_ups
      ∧ g'.obstacles = obstGame.obstacles ∧ g'.slowdowns = obstGame.slowdowns
      ∧ g'.speedups = obstGame.speedups ∧ g'.food_points = obstGame.food_points
      ∧ g'.engine = obstGame.engine :=
  C8_obstacle_tick refApi obstGame rfl (by decide) (by decide)

/-! ## C9: replacing an item and the size of its set -/

/-- C9: for every item kind, every old item, that is every grid point in that
kind's item set, and every occupancy state: if some sample still to come is
unoccupied once the old item is erased, `PlaceGridItem` terminates and the
cardinality of that kind's item set after it equals the cardinality before;
if every sample is occupied, `PlaceGridItem` does not terminate. -/
theorem C9_placeGridItem_card (api : SnakeApi F R) (gridPoint : SDL_Point)
    (itemType : GridItemType) (g : Game F R)
    (hmem : gridPoint ∈ g.itemSet itemType) :
    ((∃ q ∈ g.engine, ¬ (g.eraseItem gridPoint itemType).Occupied api q) →
      ∃ g', g.PlaceGridItem api gridPoint itemType = some g'
        ∧ (g'.itemSet itemType).card = (g.itemSet itemType).card)
    ∧ ((∀ q ∈ g.engine, (g.eraseItem gridPoint itemType).Occupied api q) →
        g.PlaceGridItem api gridPoint itemType = none) := by
  refine ⟨?_, (Game.PlaceGridItem_eq_none_iff api gridPoint itemType g).mpr⟩
  rintro ⟨q, hq, hfree⟩
  obtain ⟨g', hp⟩ := exists_of_ne_none (g.PlaceGridItem api gridPoint itemType)
    (fun hn => hfree ((Game.PlaceGridItem_eq_none_iff api gridPoint itemType g).mp hn q hq))
  refine ⟨g', hp, ?_⟩
  cases itemType with
  | giObstacle =>
    obtain ⟨p, e, _, b, _⟩ := Game.PlaceGridItem_obstacle api gridPoint g g' hp
    rw [e]
    exact card_replace p gridPoint hmem b
  | giSlowdown =>
    obtain ⟨p, e, _, _, b, _⟩ := Game.PlaceGridItem_slowdown api gridPoint g g' hp
    rw [e]
    exact card_replace p gridPoint hmem b
  | giSpeedup =>
    obtain ⟨p, e, _, _, _, b, _⟩ := Game.PlaceGridItem_speedup api gridPoint g g' hp
    rw [e]
    exact card_replace p gridPoint hmem b
  | giFood =>
    obtain ⟨p, e, _, _, _, _, b, _⟩ := Game.PlaceGridItem_food api gridPoint g g' hp
    rw [e]
    exact card_replace p gridPoint hmem b

/-- C9 on `obstGame`: replacing its slowdown (2,2) rejects the sample (5,4),
an obstacle, and puts (1,1) in its place; Slowdowns has one coordinate before
and after. -/
theorem C9_placeGridItem_card_witness :
    SDL_Point.mk 2 2 ∈ obstGame.itemSet .giSlowdown
      ∧ ∃ g', obstGame.PlaceGridItem refApi (SDL_Point.mk 2 2) .giSlowdown = some g'
          ∧ (g'.itemSet .giSlowdown).card = (obstGame.itemSet .giSlowdown).card :=
  ⟨by decide,
    (C9_placeGridItem_card refApi (SDL_Point.mk 2 2) .giSlowdown obstGame (by decide)).1
      ⟨SDL_Point.mk 1 1, by decide, by unfold Game.Occupied; decide⟩⟩

/-! ## C10: the food tick, agent -/

/-- C10 fails as stated, in two ways.  With only occupied samples to come
(`starvedGame`) the food tick does not terminate: the agent is not grown and
its speed not raised.  With the speed at the `float` 16777216
(`trackFoodGame f32Big`) the food tick terminates and leaves the speed as it
was after advancing: the sum with 0.02 rounds back to 16777216. -/
theorem C10_counterexample :
    (starvedGame.snake.alive = true
      ∧ Game.headCell refApi (refApi.Update starvedGame.snake) ∈ starvedGame.food_points
      ∧ starvedGame.Update refApi = none)
    ∧ ((trackFoodGame f32Big).snake.alive = true
      ∧ Game.headCell trackApi.ieee (trackApi.Update (trackFoodGame f32Big).snake)
          ∈ (trackFoodGame f32Big).food_points
      ∧ ∃ g', (trackFoodGame f32Big).Update trackApi.ieee = some g'
          ∧ g'.snake.speed = (trackApi.Update (trackFoodGame f32Big).snake).speed) :=
  ⟨⟨rfl, by decide, by decide⟩, ⟨rfl, by decide, _, rfl, by decide⟩⟩

/-- C10, amended: let the agent be alive and its advanced head cell be in
Food.  If some sample still to come is unoccupied once the agent has
advanced and the head cell is erased from Food, `Game::Update` terminates: it
has placed the replacement food on the state whose agent is the advanced
agent, not yet grown, its agent is that agent grown once, and the speed is the
`float` that `speed += 0.02` makes of the speed of the grown agent (the sum
with the `double` 0.02, rounded to `double` and then to `float`), which is
the speed after advancing when growing leaves the speed alone.  If every
sample is occupied, the tick does not terminate. -/
theorem C10_food_tick_agent (api : SnakeApi F32 R) (g : Game F32 R)
    (halive : g.snake.alive = true)
    (hfood : Game.headCell api.ieee (api.Update g.snake) ∈ g.food_points) :
    ((∃ q ∈ g.engine,
        ¬ Game.Occupied api.ieee
            (Game.eraseItem { g with snake := api.Update g.snake }
              (Game.headCell api.ieee (api.Update g.snake)) .giFood) q) →
      ∃ g' g3, g.Update api.ieee = some g'
        ∧ Game.PlaceGridItem api.ieee (Game.headCell api.ieee (api.Update g.snake)) .giFood
            { g with snake := api.Update g.snake, score := wrapInt (g.score + 1) } = some g3
        ∧ g3.snake = api.Update g.snake
        ∧ g' = { g3 with snake := { api.GrowBody g3.snake with
                   speed := F32.addDouble false (api.GrowBody g3.snake).speed } }
        ∧ g'.snake = { api.GrowBody (api.Update g.snake) with
                       speed := F32.addDouble false (api.GrowBody (api.Update g.snake)).speed }
        ∧ ((api.GrowBody (api.Update g.snake)).speed = (api.Update g.snake).speed →
            g'.snake.speed = F32.addDouble false (api.Update g.snake).speed))
    ∧ ((∀ q ∈ g.engine,
          Game.Occupied api.ieee
            (Game.eraseItem { g with snake := api.Update g.snake }
              (Game.headCell api.ieee (api.Update g.snake)) .giFood) q) →
        g.Update api.ieee = none) := by
  refine ⟨?_, (Game.Update_food_eq_none_iff api.ieee g halive hfood).mpr⟩
  rintro ⟨q, hq, hfree⟩
  obtain ⟨g', hu⟩ := exists_of_ne_none (g.Update api.ieee)
    (fun hn => hfree ((Game.Update_food_eq_none_iff api.ieee g halive hfood).mp hn q hq))
  have hu2 := hu
  rw [Game.Update_food api.ieee g halive hfood] at hu2
  split at hu2
  · exact absurd hu2 (by simp)
  · rename_i g3 hg3
    simp only [Option.some.injEq] at hu2
    obtain ⟨p, e, _⟩ := Game.PlaceGridItem_food api.ieee _ _ g3 hg3
    have hs : g3.snake = api.Update g.snake := by rw [e]; rfl
    refine ⟨g', g3, hu, hg3, hs, hu2.symm, ?_, ?_⟩
    · rw [← hu2]
      simp only [hs]
      rfl
    · intro hgs
      rw [← hu2]
      simp only [hs]
      show F32.addDouble false (api.GrowBody (api.Update g.snake)).speed = _
      rw [hgs]

/-- C10, amended, on `trackFoodGame f32Tenth`: the sample (7,7) is unoccupied,
the tick terminates, the agent has size 2 and the speed 0.1 has become the
`float` with the bit pattern 1039516304, about 0.12. -/
theorem C10_food_tick_agent_witness :
    ∃ g', (trackFoodGame f32Tenth).Update trackApi.ieee = some g'
      ∧ g'.snake.size = 2
      ∧ g'.snake.speed = F32.mk 1039516304 := by
  obtain ⟨g', g3, hu, _, _, _, hs, hsp⟩ :=
    (C10_food_tick_agent trackApi (trackFoodGame f32Tenth) rfl (by decide)).1
      ⟨SDL_Point.mk 7 7, by decide, by unfold Game.Occupied; decide⟩
  refine ⟨g', hu, by rw [hs]; rfl, ?_⟩
  rw [hsp rfl]
  decide

/-! ## C11: the slowdown tick and the speedup tick -/

/-- C11 fails as stated, in four ways.  With the slowdown-hit counter at
`INT_MAX` (`maxSlowGame`) the slowdown tick leaves it at `INT_MIN`.  With
only occupied samples to come (`starvedSlowGame`) the slowdown tick does not
terminate.  With an agent whose `SnakeCell` leaves out the head (`bareApi`)
the slowdown cell under the head is generated again and is in Slowdowns after
the tick.  With the speed at the `float` 16777216 the slowdown tick and the
speedup tick leave the speed as it was after advancing. -/
theorem C11_counterexample :
    (maxSlowGame.snake.alive = true
      ∧ Game.headCell refApi (refApi.Update maxSlowGame.snake) ∈ maxSlowGame.slowdowns
      ∧ Game.headCell refApi (refApi.Update maxSlowGame.snake) ∉ maxSlowGame.food_points
      ∧ Game.headCell refApi (refApi.Update maxSlowGame.snake) ∉ maxSlowGame.obstacles
      ∧ ∃ g', maxSlowGame.Update refApi = some g'
          ∧ g'.slow_downs = -2147483648 ∧ g'.slow_downs ≠ maxSlowGame.slow_downs + 1)
    ∧ (starvedSlowGame.snake.alive = true
      ∧ Game.headCell refApi (refApi.Update starvedSlowGame.snake)
          ∈ starvedSlowGame.slowdowns
      ∧ starvedSlowGame.Update refApi = none)
    ∧ (slowOnlyGame.snake.alive = true
      ∧ Game.headCell bareApi (bareApi.Update slowOnlyGame.snake) ∈ slowOnlyGame.slowdowns
      ∧ ∃ g', slowOnlyGame.Update bareApi = some g'
          ∧ Game.headCell bareApi (bareApi.Update slowOnlyGame.snake) ∈ g'.slowdowns)
    ∧ (Game.headCell trackApi.ieee (trackApi.Update (trackSlowGame f32Big).snake)
          ∈ (trackSlowGame f32Big).slowdowns
      ∧ ∃ g', (trackSlowGame f32Big).Update trackApi.ieee = some g'
          ∧ g'.snake.speed = (trackApi.Update (trackSlowGame f32Big).snake).speed)
    ∧ (Game.headCell trackApi.ieee (trackApi.Update (trackFastGame f32Big).snake)
          ∈ (trackFastGame f32Big).speedups
      ∧ ∃ g', (trackFastGame f32Big).Update trackApi.ieee = some g'
          ∧ g'.snake.speed = (trackApi.Update (trackFastGame f32Big).snake).speed) :=
  ⟨⟨rfl, by decide, by decide, by decide, _, rfl, by decide, by decide⟩,
    ⟨rfl, by decide, by decide⟩, ⟨rfl, by decide, _, rfl, by decide⟩,
    ⟨by decide, _, rfl, by decide⟩, ⟨by decide, _, rfl, by decide⟩⟩

/-- C11, amended: let the agent be alive and its advanced head cell `h` be in
neither Food nor Obstacles.  If `h` is in Slowdowns and some sample still to
come is unoccupied once the agent has advanced and `h` is erased from
Slowdowns, `Game::Update` terminates; the slowdown-hit counter is then the
incremented 32-bit `int` (one higher for a counter that is an `int` below
`INT_MAX`), Slowdowns is the old set without `h` plus one coordinate `p`
that is no cell of the advanced agent and in none of Obstacles, Speedups,
Food and the rest of Slowdowns (and, if `h` is a cell of the advanced agent,
is not `h` and was not in Slowdowns, and `h` is out of Slowdowns), and the
agent is the advanced agent with the speed that `speed -= 0.02` makes of its
speed in `float` arithmetic.  Otherwise, if `h` is in Speedups, the same
holds of the speedup-hit counter and Speedups, with `speed += 0.02`.  In
both cases the score, the other counter and the other three sets are
unchanged and `alive` is as the advance left it.  If every sample is
occupied, the tick does not terminate. -/
theorem C11_slowdown_speedup_tick (api : SnakeApi F32 R) (g : Game F32 R)
    (halive : g.snake.alive = true)
    (hfood : Game.headCell api.ieee (api.Update g.snake) ∉ g.food_points)
    (hobst : Game.headCell api.ieee (api.Update g.snake) ∉ g.obstacles) :
    (Game.headCell api.ieee (api.Update g.snake) ∈ g.slowdowns →
      ((∃ q ∈ g.engine,
          ¬ Game.Occupied api.ieee
              (Game.eraseItem { g with snake := api.Update g.snake }
                (Game.headCell api.ieee (api.Update g.snake)) .giSlowdown) q) →
        ∃ g' p, g.Update api.ieee = some g'
          ∧ g'.slow_downs = wrapInt (g.slow_downs + 1)
          ∧ (-2147483648 ≤ g.slow_downs → g.slow_downs < 2147483647 →
              g'.slow_downs = g.slow_downs + 1)
          ∧ g'.slowdowns
              = insert p (g.slowdowns.erase (Game.headCell api.ieee (api.Update g.snake)))
          ∧ api.SnakeCell (api.Update g.snake) p.x p.y = false
          ∧ p ∉ g.obstacles ∧ p ∉ g.speedups ∧ p ∉ g.food_points
          ∧ p ∉ g.slowdowns.erase (Game.headCell api.ieee (api.Update g.snake))
          ∧ (api.SnakeCell (api.Update g.snake)
                (Game.headCell api.ieee (api.Update g.snake)).x
                (Game.headCell api.ieee (api.Update g.snake)).y = true →
              p ≠ Game.headCell api.ieee (api.Update g.snake)
                ∧ Game.headCell api.ieee (api.Update g.snake) ∉ g'.slowdowns
                ∧ p ∉ g.slowdowns)
          ∧ g'.snake = { api.Update g.snake with
                         speed := F32.addDouble true (api.Update g.snake).speed }
          ∧ g'.snake.alive = (api.Update g.snake).alive
          ∧ g'.score = g.score ∧ g'.speed_ups = g.speed_ups
          ∧ g'.obstacles = g.obstacles ∧ g'.speedups = g.speedups
          ∧ g'.food_points = g.food_points)
      ∧ ((∀ q ∈ g.engine,
            Game.Occupied api.ieee
              (Game.eraseItem { g with snake := api.Update g.snake }
                (Game.headCell api.ieee (api.Update g.snake)) .giSlowdown) q) →
          g.Update api.ieee = none))
    ∧ (Game.headCell api.ieee (api.Update g.snake) ∉ g.slowdowns →
        Game.headCell api.ieee (api.Update g.snake) ∈ g.speedups →
      ((∃ q ∈ g.engine,
          ¬ Game.Occupied api.ieee
              (Game.eraseItem { g with snake := api.Update g.snake }
                (Game.headCell api.ieee (api.Update g.snake)) .giSpeedup) q) →
        ∃ g' p, g.Update api.ieee = some g'
          ∧ g'.speed_ups = wrapInt (g.speed_ups + 1)
          ∧ (-2147483648 ≤ g.speed_ups → g.speed_ups < 2147483647 →
              g'.speed_ups = g.speed_ups + 1)
          ∧ g'.speedups
              = insert p (g.speedups.erase (Game.headCell api.ieee (api.Update g.snake)))
          ∧ api.SnakeCell (api.Update g.snake) p.x p.y = false
          ∧ p ∉ g.obstacles ∧ p ∉ g.slowdowns ∧ p ∉ g.food_points
          ∧ p ∉ g.speedups.erase (Game.headCell api.ieee (api.Update g.snake))
          ∧ (api.SnakeCell (api.Update g.snake)
                (Game.headCell api.ieee (api.Update g.snake)).x
                (Game.headCell api.ieee (api.Update g.snake)).y = true →
              p ≠ Game.headCell api.ieee (api.Update g.snake)
                ∧ Game.headCell api.ieee (api.Update g.snake) ∉ g'.speedups
                ∧ p ∉ g.speedups)
          ∧ g'.snake = { api.Update g.snake with
                         speed := F32.addDouble false (api.Update g.snake).speed }
          ∧ g'.snake.alive = (api.Update g.snake).alive
          ∧ g'.score = g.score ∧ g'.slow_downs = g.slow_downs
          ∧ g'.obstacles = g.obstacles ∧ g'.slowdowns = g.slowdowns
          ∧ g'.food_points = g.food_points)
      ∧ ((∀ q ∈ g.engine,
            Game.Occupied api.ieee
              (Game.eraseItem { g with snake := api.Update g.snake }
                (Game.headCell api.ieee (api.Update g.snake)) .giSpeedup) q) →
          g.Update api.ieee = none)) := by
  constructor
  · intro hslow
    refine ⟨?_, (Game.Update_slowdown_eq_none_iff api.ieee g halive hfood hobst hslow).mpr⟩
    rintro ⟨q, hq, hfree⟩
    obtain ⟨g', hu⟩ := exists_of_ne_none (g.Update api.ieee)
      (fun hn => hfree
        ((Game.Update_slowdown_eq_none_iff api.ieee g halive hfood hobst hslow).mp hn q hq))
    obtain ⟨p, e, a, b, c, d, f, _⟩ :=
      Game.Update_slowdown_some api.ieee g g' halive hfood hobst hslow hu
    have hfp : g'.slowdowns
        = insert p (g.slowdowns.erase (Game.headCell api.ieee (api.Update g.snake))) := by
      rw [e]; rfl
    have hsc : g'.slow_downs = wrapInt (g.slow_downs + 1) := by rw [e]
    refine ⟨g', p, hu, hsc, ?_, hfp, a, b, d, f, c, ?_, by rw [e]; rfl, by rw [e]; rfl,
      by rw [e], by rw [e], by rw [e], by rw [e], by rw [e]⟩
    · intro hlo hhi
      rw [hsc]
      exact wrapInt_of_range _ (by omega) (by omega)
    · intro hhead
      have hne : p ≠ Game.headCell api.ieee (api.Update g.snake) := by
        intro h
        have a2 : api.SnakeCell (api.Update g.snake) p.x p.y = false := a
        rw [h, hhead] at a2
        exact absurd a2 (by simp)
      refine ⟨hne, ?_, fun h => c (Finset.mem_erase.mpr ⟨hne, h⟩)⟩
      rw [hfp]
      simp only [Finset.mem_insert, Finset.mem_erase, not_or, not_and]
      exact ⟨fun h => hne h.symm, fun h => absurd rfl h⟩
  · intro hslow hfast
    refine ⟨?_,
      (Game.Update_speedup_eq_none_iff api.ieee g halive hfood hobst hslow hfast).mpr⟩
    rintro ⟨q, hq, hfree⟩
    obtain ⟨g', hu⟩ := exists_of_ne_none (g.Update api.ieee)
      (fun hn => hfree
        ((Game.Update_speedup_eq_none_iff api.ieee g halive hfood hobst hslow hfast).mp
          hn q hq))
    obtain ⟨p, e, a, b, c, d, f, _⟩ :=
      Game.Update_speedup_some api.ieee g g' halive hfood hobst hslow hfast hu
    have hfp : g'.speedups
        = insert p (g.speedups.erase (Game.headCell api.ieee (api.Update g.snake))) := by
      rw [e]; rfl
    have hsc : g'.speed_ups = wrapInt (g.speed_ups + 1) := by rw [e]
    refine ⟨g', p, hu, hsc, ?_, hfp, a, b, c, f, d, ?_, by rw [e]; rfl, by rw [e]; rfl,
      by rw [e], by rw [e], by rw [e], by rw [e], by rw [e]⟩
    · intro hlo hhi
      rw [hsc]
      exact wrapInt_of_range _ (by omega) (by omega)
    · intro hhead
      have hne : p ≠ Game.headCell api.ieee (api.Update g.snake) := by
        intro h
        have a2 : api.SnakeCell (api.Update g.snake) p.x p.y = false := a
        rw [h, hhead] at a2
        exact absurd a2 (by simp)
      refine ⟨hne, ?_, fun h => d (Finset.mem_erase.mpr ⟨hne, h⟩)⟩
      rw [hfp]
      simp only [Finset.mem_insert, Finset.mem_erase, not_or, not_and]
      exact ⟨fun h => hne h.symm, fun h => absurd rfl h⟩

/-- C11, amended, on `trackSlowGame f32Tenth` and `trackFastGame f32Tenth`: the
sample (7,7) is unoccupied, both ticks terminate, the hit counter is 1, and
the speed 0.1 has become the `float` with the bit pattern 1034147594, about
0.08, on the slowdown and 1039516304, about 0.12, on the speedup. -/
theorem C11_slowdown_speedup_tick_witness :
    (∃ g', (trackSlowGame f32Tenth).Update trackApi.ieee = some g'
      ∧ g'.slow_downs = 1 ∧ g'.snake.speed = F32.mk 1034147594)
    ∧ (∃ g', (trackFastGame f32Tenth).Update trackApi.ieee = some g'
      ∧ g'.speed_ups = 1 ∧ g'.snake.speed = F32.mk 1039516304) := by
  obtain ⟨g1, _, hu1, _, hc1, _, _, _, _, _, _, _, hs1, _⟩ :=
    ((C11_slowdown_speedup_tick trackApi (trackSlowGame f32Tenth) rfl (by decide)
      (by decide)).1 (by decide)).1
      ⟨SDL_Point.mk 7 7, by decide, by unfold Game.Occupied; decide⟩
  obtain ⟨g2, _, hu2, _, hc2, _, _, _, _, _, _, _, hs2, _⟩ :=
    ((C11_slowdown_speedup_tick trackApi (trackFastGame f32Tenth) rfl (by decide)
      (by decide)).2 (by decide) (by decide)).1
      ⟨SDL_Point.mk 7 7, by decide, by unfold Game.Occupied; decide⟩
  refine ⟨⟨g1, hu1, ?_, ?_⟩, ⟨g2, hu2, ?_, ?_⟩⟩
  · rw [hc1 (by decide) (by decide)]; rfl
  · rw [hs1]; decide
  · rw [hc2 (by decide) (by decide)]; rfl
  · rw [hs2]; decide

/-! ## C12: construction -/

/-- What a batch that terminates returns, for any count: as many points as
the count converted to `std::size_t`, each an accepted sample; only the
engine moves. -/
theorem Game.GenerateGridPoints_eq_some (api : SnakeApi F R) (num : Int) (g : Game F R)
    (pts : Finset SDL_Point) (g' : Game F R)
    (hr : g.GenerateGridPoints api num = some (pts, g')) :
    pts.card = toSizeT num ∧ (∀ p ∈ pts, g.cellFree api p.x p.y = true)
      ∧ g' = { g with engine := g'.engine } := by
  obtain ⟨k1, k2, k3⟩ := Game.generateRounds_eq_some api num (fun _ => True)
    (g.engine.length + 1) ∅ g pts g' (by simp) (by simp) (by simp) hr
  exact ⟨k1, fun p hp => (k2 p hp).2, k3⟩

theorem toSizeT_of_isCount (n : Int) (h : IsCount n) : (toSizeT n : Int) = n :=
  toSizeT_of_nonneg n h.1 (by have := h.2; omega)

/-- C12: for configured counts of obstacles, slowdowns, speedups and food
that are non-negative `int`s, a construction that terminates yields four
item sets whose cardinalities are the configured counts, that are pairwise
disjoint and that hold no cell of the agent; the agent, the counters and the
samples not drawn are as they were handed in. -/
theorem C12_construct_establishes_invariant (api : SnakeApi F R) (config : Config)
    (foodPoints : Int) (snake : Snake F R) (engine : List SDL_Point)
    (score slow_downs speed_ups : Int) (g : Game F R)
    (ho : IsCount config.getObstacles) (hs : IsCount config.getSlowdowns)
    (hf : IsCount config.getSpeedups) (hp : IsCount foodPoints)
    (hc : Game.construct api config foodPoints snake engine score slow_downs speed_ups
      = some g) :
    (g.obstacles.card : Int) = config.getObstacles
      ∧ (g.slowdowns.card : Int) = config.getSlowdowns
      ∧ (g.speedups.card : Int) = config.getSpeedups
      ∧ (g.food_points.card : Int) = foodPoints
      ∧ g.ItemsDisjoint ∧ g.ItemsOffSnake api
      ∧ g.snake = snake ∧ g.score = score ∧ g.slow_downs = slow_downs
      ∧ g.speed_ups = speed_ups := by
  simp only [Game.construct] at hc
  split at hc
  · exact absurd hc (by simp)
  · rename_i pts1 g1 r1
    split at hc
    · exact absurd hc (by simp)
    · rename_i pts2 g2 r2
      split at hc
      · exact absurd hc (by simp)
      · rename_i pts3 g3 r3
        split at hc
        · exact absurd hc (by simp)
        · rename_i pts4 g4 r4
          simp only [Option.some.injEq] at hc
          obtain ⟨c1, f1, e1⟩ := Game.GenerateGridPoints_eq_some api _ _ pts1 g1 r1
          obtain ⟨c2, f2, e2⟩ := Game.GenerateGridPoints_eq_some api _ _ pts2 g2 r2
          obtain ⟨c3, f3, e3⟩ := Game.GenerateGridPoints_eq_some api _ _ pts3 g3 r3
          obtain ⟨c4, f4, e4⟩ := Game.GenerateGridPoints_eq_some api _ _ pts4 g4 r4
          have q1 := fun p hp => Game.cellFree_facts api _ p (f1 p hp)
          have q2 := fun p hp => Game.cellFree_facts api _ p (f2 p hp)
          have q3 := fun p hp => Game.cellFree_facts api _ p (f3 p hp)
          have q4 := fun p hp => Game.cellFree_facts api _ p (f4 p hp)
          have s1 : g1.snake = snake := by rw [e1]
          have s2 : g2.snake = snake := by rw [e2]; exact s1
          have s3 : g3.snake = snake := by rw [e3]; exact s2
          have s4 : g4.snake = snake := by rw [e4]; exact s3
          have o2 : g2.obstacles = pts1 := by rw [e2]
          have o3 : g3.obstacles = pts1 := by rw [e3]; exact o2
          have o4 : g4.obstacles = pts1 := by rw [e4]; exact o3
          have l3 : g3.slowdowns = pts2 := by rw [e3]
          have l4 : g4.slowdowns = pts2 := by rw [e4]; exact l3
          have u4 : g4.speedups = pts3 := by rw [e4]
          have n1 : g1.score = score ∧ g1.slow_downs = slow_downs
              ∧ g1.speed_ups = speed_ups := by rw [e1]; exact ⟨rfl, rfl, rfl⟩
          have n2 : g2.score = score ∧ g2.slow_downs = slow_downs
              ∧ g2.speed_ups = speed_ups := by rw [e2]; exact n1
          have n3 : g3.score = score ∧ g3.slow_downs = slow_downs
              ∧ g3.speed_ups = speed_ups := by rw [e3]; exact n2
          have n4 : g4.score = score ∧ g4.slow_downs = slow_downs
              ∧ g4.speed_ups = speed_ups := by rw [e4]; exact n3
          simp only [s1, s2, s3] at q1 q2 q3 q4
          simp only [o2, o3, l3] at q3 q4
          rw [← hc]
          simp only [o4, l4, u4, s4]
          refine ⟨by rw [c1]; exact toSizeT_of_isCount _ ho,
            by rw [c2]; exact toSizeT_of_isCount _ hs,
            by rw [c3]; exact toSizeT_of_isCount _ hf,
            by rw [c4]; exact toSizeT_of_isCount _ hp, ?_, ?_, trivial, n4.1, n4.2.1, n4.2.2⟩
          · refine ⟨?_, ?_, ?_, ?_, ?_, ?_⟩
            · exact Finset.disjoint_right.mpr (fun p hp => (q2 p hp).2.1)
            · exact Finset.disjoint_right.mpr (fun p hp => (q3 p hp).2.1)
            · exact Finset.disjoint_right.mpr (fun p hp => (q4 p hp).2.1)
            · exact Finset.disjoint_right.mpr (fun p hp => (q3 p hp).2.2.1)
            · exact Finset.disjoint_right.mpr (fun p hp => (q4 p hp).2.2.1)
            · exact Finset.disjoint_right.mpr (fun p hp => (q4 p hp).2.2.2.1)
          · intro p hp
            simp only [Finset.mem_union] at hp
            rcases hp with ((hp | hp) | hp) | hp
            · exact (q1 p hp).1
            · exact (q2 p hp).1
            · exact (q3 p hp).1
            · exact (q4 p hp).1

/-- C12 on `refConfig`, one food point, `refSnake` and `refSamples`: the
construction rejects the head cell and a repeated obstacle, needs a second
round for the slowdowns and ends in `builtGame` with 1, 2, 1 and 1 items. -/
theorem C12_construct_establishes_invariant_witness :
    Game.construct refApi refConfig 1 refSnake refSamples 0 0 0 = some builtGame
      ∧ (builtGame.obstacles.card : Int) = 1 ∧ (builtGame.slowdowns.card : Int) = 2
      ∧ builtGame.ItemsDisjoint ∧ builtGame.ItemsOffSnake refApi := by
  have h := C12_construct_establishes_invariant refApi refConfig 1 refSnake refSamples 0 0 0
    builtGame (by unfold IsCount; decide) (by unfold IsCount; decide)
    (by unfold IsCount; decide) (by unfold IsCount; decide) rfl
  exact ⟨rfl, h.1, h.2.1, h.2.2.2.2.1, h.2.2.2.2.2.1⟩

/-! ## C13: the alive flag -/

/-- C13 fails as stated.  The agent of `coiledGame` is alive and steps from
(5,5) onto its own body cell (5,4), which holds no item; with the agent that
dies of a collision with itself (`selfApi`) the tick ends with the agent dead
although its head cell is in no Obstacle set. -/
theorem C13_counterexample :
    coiledGame.snake.alive = true
      ∧ Game.headCell selfApi (selfApi.Update coiledGame.snake) ∉ coiledGame.obstacles
      ∧ ∃ g', coiledGame.Update selfApi = some g' ∧ g'.snake.alive = false :=
  ⟨rfl, by decide, _, rfl, by decide⟩

/-- C13, amended: across a tick that terminates a dead agent stays dead; and
if the agent is alive before and dead after the tick, then the advanced head
cell is in Obstacles (and not in Food), or the agent's own advance has left
it dead (it has collided with itself), or the tick is a food tick and growing
has left the agent dead.  The tick itself clears the flag in the obstacle
branch only. -/
theorem C13_alive_never_reverses (api : SnakeApi F R) (g g' : Game F R)
    (hu : g.Update api = some g') :
    (g.snake.alive = false → g'.snake.alive = false)
      ∧ (g.snake.alive = true → g'.snake.alive = false →
          (Game.headCell api (api.Update g.snake) ∈ g.obstacles
              ∧ Game.headCell api (api.Update g.snake) ∉ g.food_points)
            ∨ (api.Update g.snake).alive = false
            ∨ (Game.headCell api (api.Update g.snake) ∈ g.food_points
                ∧ (api.GrowBody (api.Update g.snake)).alive = false)) := by
  constructor
  · intro hdead
    rw [Game.Update_dead api g hdead] at hu
    simp only [Option.some.injEq] at hu
    rw [← hu]; exact hdead
  · intro halive hdead
    by_cases hfood : Game.headCell api (api.Update g.snake) ∈ g.food_points
    · obtain ⟨p, e, _⟩ := Game.Update_food_some api g g' halive hfood hu
      rw [e] at hdead
      exact Or.inr (Or.inr ⟨hfood, hdead⟩)
    · by_cases hobst : Game.headCell api (api.Update g.snake) ∈ g.obstacles
      · exact Or.inl ⟨hobst, hfood⟩
      · by_cases hslow : Game.headCell api (api.Update g.snake) ∈ g.slowdowns
        · obtain ⟨p, e, _⟩ := Game.Update_slowdown_some api g g' halive hfood hobst hslow hu
          rw [e] at hdead
          exact Or.inr (Or.inl hdead)
        · by_cases hfast : Game.headCell api (api.Update g.snake) ∈ g.speedups
          · obtain ⟨p, e, _⟩ :=
              Game.Update_speedup_some api g g' halive hfood hobst hslow hfast hu
            rw [e] at hdead
            exact Or.inr (Or.inl hdead)
          · rw [Game.Update_none api g halive hfood hobst hslow hfast] at hu
            simp only [Option.some.injEq] at hu
            rw [← hu] at hdead
            exact Or.inr (Or.inl hdead)

/-- C13, amended, on `deadGame`, `obstGame` and `coiledGame`: the dead agent
stays dead; the agent of `obstGame` ends dead in `obstGameHit` with its head
on an obstacle; the agent of `coiledGame` ends dead by its own advance. -/
theorem C13_alive_never_reverses_witness :
    (deadGame.Update refApi = some deadGame ∧ deadGame.snake.alive = false)
      ∧ (obstGame.Update refApi = some obstGameHit
        ∧ (Game.headCell refApi (refApi.Update obstGame.snake) ∈ obstGame.obstacles
              ∧ Game.headCell refApi (refApi.Update obstGame.snake) ∉ obstGame.food_points
            ∨ (refApi.Update obstGame.snake).alive = false
            ∨ Game.headCell refApi (refApi.Update obstGame.snake) ∈ obstGame.food_points
              ∧ (refApi.GrowBody (refApi.Update obstGame.snake)).alive = false))
      ∧ (selfApi.Update coiledGame.snake).alive = false :=
  ⟨⟨by decide, (C13_alive_never_reverses refApi deadGame deadGame (by decide)).1 rfl⟩,
    ⟨by decide, (C13_alive_never_reverses refApi obstGame obstGameHit (by decide)).2 rfl rfl⟩,
    by decide⟩

/-! ## C14: the order on grid coordinates -/

/-- C14: `operator<` is the lexicographic order on `(x, y)`: `pt1 < pt2` holds
iff `pt1.x < pt2.x`, or `pt1.x = pt2.x` and `pt1.y < pt2.y`.  It is
irreflexive and transitive, of two distinct coordinates exactly one is below
the other, and two coordinates are equivalent (neither below the other) iff
they are equal. -/
theorem C14_lt_lexicographic (pt1 pt2 pt3 : SDL_Point) :
    (pt1.lt pt2 = true ↔ (pt1.x < pt2.x ∨ (pt1.x = pt2.x ∧ pt1.y < pt2.y)))
      ∧ pt1.lt pt1 = false
      ∧ (pt1.lt pt2 = true → pt2.lt pt3 = true → pt1.lt pt3 = true)
      ∧ (pt1 ≠ pt2 →
          (pt1.lt pt2 = true ∧ pt2.lt pt1 = false)
            ∨ (pt1.lt pt2 = false ∧ pt2.lt pt1 = true))
      ∧ ((pt1.lt pt2 = false ∧ pt2.lt pt1 = false) ↔ pt1 = pt2) := by
  have lex : ∀ a b : SDL_Point,
      a.lt b = true ↔ (a.x < b.x ∨ (a.x = b.x ∧ a.y < b.y)) := by
    intro a b
    unfold SDL_Point.lt
    by_cases hx : a.x = b.x
    · by_cases hy : a.y = b.y
      · simp [hx, hy]
      · simp [hx, hy]
    · simp only [ne_eq, hx, not_false_eq_true, if_true, decide_eq_true_eq]
      constructor
      · exact fun h => Or.inl h
      · rintro (h | h)
        · exact h
        · exact h.1.elim
  refine ⟨lex pt1 pt2, ?_, ?_, ?_, SDL_Point.equiv_iff_eq pt1 pt2⟩
  · simp [SDL_Point.lt]
  · intro h12 h23
    rw [lex] at h12 h23 ⊢
    omega
  · intro hne
    have hcoord : pt1.x ≠ pt2.x ∨ pt1.y ≠ pt2.y := by
      by_contra hc
      simp only [not_or, not_not] at hc
      apply hne
      obtain ⟨x1, y1⟩ := pt1
      obtain ⟨x2, y2⟩ := pt2
      simp only [SDL_Point.mk.injEq]
      exact hc
    have n12 : pt1.lt pt2 = false ↔ ¬ (pt1.x < pt2.x ∨ (pt1.x = pt2.x ∧ pt1.y < pt2.y)) := by
      rw [← lex, Bool.not_eq_true]
    have n21 : pt2.lt pt1 = false ↔ ¬ (pt2.x < pt1.x ∨ (pt2.x = pt1.x ∧ pt2.y < pt1.y)) := by
      rw [← lex, Bool.not_eq_true]
    rw [lex, lex, n12, n21]
    omega

/-- C14 at (1,5), (2,0), (2,3): (1,5) is below (2,0), (2,0) below (2,3), hence
(1,5) below (2,3); and of the distinct (1,5), (2,0) only the first is below
the other. -/
theorem C14_lt_lexicographic_witness :
    (SDL_Point.mk 1 5).lt (SDL_Point.mk 2 3) = true
      ∧ ((SDL_Point.mk 1 5).lt (SDL_Point.mk 2 0) = true
            ∧ (SDL_Point.mk 2 0).lt (SDL_Point.mk 1 5) = false
          ∨ (SDL_Point.mk 1 5).lt (SDL_Point.mk 2 0) = false
            ∧ (SDL_Point.mk 2 0).lt (SDL_Point.mk 1 5) = true) :=
  ⟨(C14_lt_lexicographic (SDL_Point.mk 1 5) (SDL_Point.mk 2 0) (SDL_Point.mk 2 3)).2.2.1
      (by decide) (by decide),
    (C14_lt_lexicographic (SDL_Point.mk 1 5) (SDL_Point.mk 2 0) (SDL_Point.mk 2 3)).2.2.2.1
      (by decide)⟩

/-! ## C16: first match wins -/

/-- C16: on every state, whether or not the item sets are disjoint,
`Game::Update` is the tick of the spec: after the advance it applies the
effect of the first of Food, Obstacle, Slowdown, Speedup whose set holds the
head cell, and of no other kind.  In particular, when the agent is alive and
the head cell is in both Food and Obstacles, a tick that terminates has
applied the food effect (score incremented, one higher below `INT_MAX`,
agent grown, speed plus 0.02),
the obstacle is still there, both hit counters are unchanged and the `alive`
flag is the one the grown agent carries: the tick has not cleared it. -/
theorem C16_first_match_wins (api : SnakeApi F R) (g : Game F R) :
    g.Update api = g.tickSpec api
      ∧ ∀ g' : Game F R, g.snake.alive = true →
          Game.headCell api (api.Update g.snake) ∈ g.food_points →
          Game.headCell api (api.Update g.snake) ∈ g.obstacles →
          g.Update api = some g' →
          g'.score = wrapInt (g.score + 1)
            ∧ (-2147483648 ≤ g.score → g.score < 2147483647 → g'.score = g.score + 1)
            ∧ g'.snake = { api.GrowBody (api.Update g.snake) with
                           speed := api.addStep (api.GrowBody (api.Update g.snake)).speed }
            ∧ g'.snake.alive = (api.GrowBody (api.Update g.snake)).alive
            ∧ ((api.GrowBody (api.Update g.snake)).alive = true → g'.snake.alive = true)
            ∧ g'.obstacles = g.obstacles
            ∧ Game.headCell api (api.Update g.snake) ∈ g'.obstacles
            ∧ g'.slow_downs = g.slow_downs ∧ g'.speed_ups = g.speed_ups
            ∧ g'.slowdowns = g.slowdowns ∧ g'.speedups = g.speedups := by
  constructor
  · cases halive : g.snake.alive with
    | false => simp [Game.Update_dead api g halive, Game.tickSpec, halive]
    | true =>
      by_cases hfood : Game.headCell api (api.Update g.snake) ∈ g.food_points
      · rw [Game.Update_food api g halive hfood]
        simp only [Game.tickSpec, halive, Game.firstMatch, hfood, if_true, Game.itemEffect]
        rfl
      · by_cases hobst : Game.headCell api (api.Update g.snake) ∈ g.obstacles
        · rw [Game.Update_obstacle api g halive hfood hobst]
          simp only [Game.tickSpec, halive, Game.firstMatch, hfood, hobst, if_true, if_false,
            Game.itemEffect]
          rfl
        · by_cases hslow : Game.headCell api (api.Update g.snake) ∈ g.slowdowns
          · rw [Game.Update_slowdown api g halive hfood hobst hslow]
            simp only [Game.tickSpec, halive, Game.firstMatch, hfood, hobst, hslow, if_true,
              if_false, Game.itemEffect]
            rfl
          · by_cases hfast : Game.headCell api (api.Update g.snake) ∈ g.speedups
            · rw [Game.Update_speedup api g halive hfood hobst hslow hfast]
              simp only [Game.tickSpec, halive, Game.firstMatch, hfood, hobst, hslow, hfast,
                if_true, if_false, Game.itemEffect]
              rfl
            · rw [Game.Update_none api g halive hfood hobst hslow hfast]
              simp only [Game.tickSpec, halive, Game.firstMatch, hfood, hobst, hslow, hfast,
                if_false]
              rfl
  · intro g' halive hfood hobst hu
    obtain ⟨p, e, _⟩ := Game.Update_food_some api g g' halive hfood hu
    have hsc : g'.score = wrapInt (g.score + 1) := by rw [e]
    refine ⟨hsc, fun hlo hhi => by rw [hsc]; exact wrapInt_of_range _ (by omega) (by omega),
      by rw [e], by rw [e], fun h => by rw [e]; exact h, by rw [e],
      by rw [e]; exact hobst, by rw [e], by rw [e], by rw [e], by rw [e]⟩

/-- C16 on `foodObstGame`, where (5,4) is food and obstacle: the tick ends in
`foodObstGameFed`, score 1, the obstacle still on (5,4), the agent alive. -/
theorem C16_first_match_wins_witness :
    foodObstGame.Update refApi = some foodObstGameFed
      ∧ foodObstGameFed.score = foodObstGame.score + 1
      ∧ foodObstGameFed.snake.alive = true
      ∧ Game.headCell refApi (refApi.Update foodObstGame.snake) ∈ foodObstGameFed.obstacles := by
  have h := (C16_first_match_wins refApi foodObstGame).2 foodObstGameFed rfl (by decide)
    (by decide) (by decide)
  exact ⟨by decide, h.2.1 (by decide) (by decide), h.2.2.2.2.1 rfl, h.2.2.2.2.2.2.1⟩

/-! ## C17: the tick that meets no item -/

/-- C17: let the agent be alive and its advanced head cell be in none of
Food, Obstacles, Slowdowns, Speedups.  Then `Game::Update` terminates and
its result is the state with the agent advanced and nothing else changed:
score, both hit counters and the four item sets are as before, speed and
`alive` are as the advance left them, and the engine is untouched. -/
theorem C17_no_item_tick (api : SnakeApi F R) (g : Game F R)
    (halive : g.snake.alive = true)
    (hfood : Game.headCell api (api.Update g.snake) ∉ g.food_points)
    (hobst : Game.headCell api (api.Update g.snake) ∉ g.obstacles)
    (hslow : Game.headCell api (api.Update g.snake) ∉ g.slowdowns)
    (hfast : Game.headCell api (api.Update g.snake) ∉ g.speedups) :
    ∃ g', g.Update api = some g'
      ∧ g' = { g with snake := api.Update g.snake }
      ∧ g'.snake.speed = (api.Update g.snake).speed
      ∧ g'.snake.alive = (api.Update g.snake).alive
      ∧ g'.score = g.score ∧ g'.slow_downs = g.slow_downs ∧ g'.speed_ups = g.speed_ups
      ∧ g'.obstacles = g.obstacles ∧ g'.slowdowns = g.slowdowns
      ∧ g'.speedups = g.speedups ∧ g'.food_points = g.food_points
      ∧ g'.engine = g.engine :=
  ⟨_, Game.Update_none api g halive hfood hobst hslow hfast, rfl, rfl, rfl, rfl, rfl, rfl,
    rfl, rfl, rfl, rfl, rfl⟩

/-- C17 on `plainGame`: the head steps on the empty cell (5,4); the tick
terminates with only the agent advanced, the four samples still to come. -/
theorem C17_no_item_tick_witness :
    ∃ g', plainGame.Update refApi = some g'
      ∧ g' = { plainGame with snake := refApi.Update plainGame.snake }
      ∧ g'.snake.speed = (refApi.Update plainGame.snake).speed
      ∧ g'.snake.alive = (refApi.Update plainGame.snake).alive
      ∧ g'.score = plainGame.score ∧ g'.slow_downs = plainGame.slow_downs
      ∧ g'.speed_ups = plainGame.speed_ups
      ∧ g'.obstacles = plainGame.obstacles ∧ g'.slowdowns = plainGame.slowdowns
      ∧ g'.speedups = plainGame.speedups ∧ g'.food_points = plainGame.food_points
      ∧ g'.engine = plainGame.engine :=
  C17_no_item_tick refApi plainGame rfl (by decide) (by decide) (by decide) (by decide)

/-! ## C19: the sizes of the item sets -/

/-- C19: on every state, alive or dead, with or without disjoint item sets, a
tick that terminates leaves the cardinality of each of Obstacles, Slowdowns,
Speedups and Food as it was, and leaves the Obstacle set itself as it was. -/
theorem C19_update_preserves_cards (api : SnakeApi F R) (g g' : Game F R)
    (hu : g.Update api = some g') :
    g'.obstacles.card = g.obstacles.card ∧ g'.slowdowns.card = g.slowdowns.card
      ∧ g'.speedups.card = g.speedups.card ∧ g'.food_points.card = g.food_points.card
      ∧ g'.obstacles = g.obstacles := by
  cases halive : g.snake.alive with
  | false =>
    rw [Game.Update_dead api g halive] at hu
    simp only [Option.some.injEq] at hu
    subst hu
    exact ⟨rfl, rfl, rfl, rfl, rfl⟩
  | true =>
    by_cases hfood : Game.headCell api (api.Update g.snake) ∈ g.food_points
    · obtain ⟨p, e, _, _, _, _, f, _⟩ := Game.Update_food_some api g g' halive hfood hu
      rw [e]
      exact ⟨rfl, rfl, rfl, card_replace p _ hfood f, rfl⟩
    · by_cases hobst : Game.headCell api (api.Update g.snake) ∈ g.obstacles
      · rw [Game.Update_obstacle api g halive hfood hobst] at hu
        simp only [Option.some.injEq] at hu
        subst hu
        exact ⟨rfl, rfl, rfl, rfl, rfl⟩
      · by_cases hslow : Game.headCell api (api.Update g.snake) ∈ g.slowdowns
        · obtain ⟨p, e, _, _, c, _⟩ :=
            Game.Update_slowdown_some api g g' halive hfood hobst hslow hu
          rw [e]
          exact ⟨rfl, card_replace p _ hslow c, rfl, rfl, rfl⟩
        · by_cases hfast : Game.headCell api (api.Update g.snake) ∈ g.speedups
          · obtain ⟨p, e, _, _, _, d, _⟩ :=
              Game.Update_speedup_some api g g' halive hfood hobst hslow hfast hu
            rw [e]
            exact ⟨rfl, rfl, card_replace p _ hfast d, rfl, rfl⟩
          · rw [Game.Update_none api g halive hfood hobst hslow hfast] at hu
            simp only [Option.some.injEq] at hu
            subst hu
            exact ⟨rfl, rfl, rfl, rfl, rfl⟩

/-- C19 on `slowGame`, whose Slowdowns and Speedups overlap: the tick ends in
`slowGameHit` with one item of each kind, as before. -/
theorem C19_update_preserves_cards_witness :
    slowGame.Update refApi = some slowGameHit
      ∧ slowGameHit.obstacles.card = slowGame.obstacles.card
      ∧ slowGameHit.slowdowns.card = slowGame.slowdowns.card
      ∧ slowGameHit.speedups.card = slowGame.speedups.card
      ∧ slowGameHit.food_points.card = slowGame.food_points.card
      ∧ slowGameHit.obstacles = slowGame.obstacles :=
  ⟨by decide, C19_update_preserves_cards refApi slowGame slowGameHit (by decide)⟩

/-! ## C20: a negative count -/

/-- A round of more workers than there are samples does not terminate on
those samples. -/
theorem Game.launchWorkers_eq_none (api : SnakeApi F R) (k : Nat) (g : Game F R)
    (h : g.engine.length < k) : g.launchWorkers api k = none := by
  cases hw : g.launchWorkers api k with
  | none => rfl
  | some r =>
    obtain ⟨ps, g1⟩ := r
    obtain ⟨_, _, _, hcost, _⟩ := Game.launchWorkers_eq_some api k g ps g1 hw
    omega

/-- C20: for a negative `int` count `num` the count converts to
`num + 2 ^ 64`, so the guard `pts.size() < num` holds on entry with the empty
set, the first round runs `num + 2 ^ 64` searches, and a call that returns,
returns a set of no fewer than `num + 2 ^ 64` coordinates, never the empty
set; on fewer samples than that the call does not terminate. -/
theorem C20_negative_count (api : SnakeApi F R) (num : Int) (g : Game F R)
    (hneg : num < 0) (hmin : -2147483648 ≤ num) :
    (toSizeT num : Int) = num + 2 ^ 64
      ∧ (∅ : Finset SDL_Point).card < toSizeT num
      ∧ g.GenerateGridPoints api num
          = (match g.launchWorkers api (toSizeT num) with
            | none => none
            | some (ps, g1) => Game.generateRounds api num g.engine.length (insertAll ∅ ps) g1)
      ∧ (∀ (pts : Finset SDL_Point) (g' : Game F R),
          g.GenerateGridPoints api num = some (pts, g') →
            toSizeT num ≤ pts.card ∧ pts ≠ ∅)
      ∧ (g.engine.length < toSizeT num → g.GenerateGridPoints api num = none) := by
  have hconv : (toSizeT num : Int) = num + 2 ^ 64 := by
    unfold toSizeT
    have h1 : num % 2 ^ 64 = num + 2 ^ 64 := by
      rw [← Int.add_emod_self]
      exact Int.emod_eq_of_lt (by omega) (by omega)
    rw [h1]
    omega
  have hpos : 0 < toSizeT num := by omega
  have hfirst : g.GenerateGridPoints api num
      = (match g.launchWorkers api (toSizeT num) with
        | none => none
        | some (ps, g1) =>
          Game.generateRounds api num g.engine.length (insertAll ∅ ps) g1) := by
    simp only [Game.GenerateGridPoints, Game.generateRounds, Finset.card_empty, hpos, if_true,
      Nat.cast_zero, sub_zero]
  refine ⟨hconv, by simpa using hpos, hfirst, ?_, ?_⟩
  · intro pts g' hr
    obtain ⟨c, _, _⟩ := Game.GenerateGridPoints_eq_some api num g pts g' hr
    refine ⟨by omega, ?_⟩
    intro he
    rw [he, Finset.card_empty] at c
    omega
  · intro hfew
    rw [hfirst, Game.launchWorkers_eq_none api _ g hfew]

/-- C20 at the count -1 on `refGame`: the count converts to `2 ^ 64 - 1` and
the call does not terminate on the four samples. -/
theorem C20_negative_count_witness :
    (toSizeT (-1) : Int) = -1 + 2 ^ 64 ∧ refGame.GenerateGridPoints refApi (-1) = none :=
  ⟨(C20_negative_count refApi (-1) refGame (by decide) (by decide)).1,
    (C20_negative_count refApi (-1) refGame (by decide) (by decide)).2.2.2.2 (by decide)⟩

/-! ## C18: the counts read from the configuration file -/

/-- C18 fails as stated.  From the file `negFile`, whose only line is `-3`,
`Config::ReadConfig` returns -3 obstacles, and `getObstacles` of the
configuration built from it is negative. -/
theorem C18_counterexample :
    Config.ReadConfig (some negFile) = some (-3, 0, 0)
      ∧ ∃ c, Config.construct (some negFile) = some c ∧ c.getObstacles < 0 :=
  ⟨by decide, _, rfl, by decide⟩

theorem digitsValue_foldl_nonneg (ds : List Char) (acc : Int) (h : 0 ≤ acc) :
    0 ≤ ds.foldl (fun acc c => acc * 10 + ((c.toNat - 48 : Nat) : Int)) acc := by
  induction ds generalizing acc with
  | nil => exact h
  | cons d ds ih =>
    simp only [List.foldl_cons]
    exact ih _ (by positivity)

/-- A word without a minus sign is read as a non-negative number. -/
theorem stoi_nonneg (str : List Char) (n : Int) (hminus : '-' ∉ str)
    (h : stoi str = some n) : 0 ≤ n := by
  have hhead : (str.dropWhile isSpace).head? ≠ some '-' := by
    intro hh
    exact hminus (List.dropWhile_subset isSpace (List.mem_of_mem_head? hh))
  simp only [stoi, hhead, false_or, if_false] at h
  split_ifs at h
  all_goals
    simp only [Option.some.injEq] at h
    rw [← h]
    exact digitsValue_foldl_nonneg _ 0 (le_refl 0)

theorem getline_subset (stream line rest : List Char)
    (h : getline stream = some (line, rest)) :
    (∀ c ∈ line, c ∈ stream) ∧ (∀ c ∈ rest, c ∈ stream) := by
  unfold getline at h
  split at h
  · exact absurd h (by simp)
  · simp only [Option.some.injEq, Prod.mk.injEq] at h
    obtain ⟨rfl, rfl⟩ := h
    exact ⟨fun c hc => List.takeWhile_subset _ hc,
      fun c hc => List.dropWhile_subset _ (List.mem_of_mem_tail hc)⟩

theorem extractWord_subset (line value : List Char) (c : Char)
    (h : c ∈ extractWord line value) : c ∈ line ∨ c ∈ value := by
  unfold extractWord at h
  split at h
  · exact Or.inr h
  · rename_i d ds hd
    left
    have h1 := List.takeWhile_subset _ h
    rw [← hd] at h1
    exact List.dropWhile_subset _ h1

/-- One block of `ReadConfig` on a stream and a word without minus sign. -/
theorem Config.readCount_nonneg (l : Int) (value stream : List Char) (n : Int)
    (value1 stream1 : List Char) (hl : 0 ≤ l) (hv : '-' ∉ value) (hs : '-' ∉ stream)
    (h : Config.readCount l value stream = some (n, value1, stream1)) :
    0 ≤ n ∧ '-' ∉ value1 ∧ '-' ∉ stream1 := by
  unfold Config.readCount at h
  split at h
  · simp only [Option.some.injEq, Prod.mk.injEq] at h
    obtain ⟨rfl, rfl, rfl⟩ := h
    exact ⟨hl, hv, hs⟩
  · rename_i line rest hg
    obtain ⟨hline, hrest⟩ := getline_subset stream line rest hg
    have hw : '-' ∉ extractWord line value := by
      intro hc
      rcases extractWord_subset line value _ hc with hc | hc
      · exact hs (hline _ hc)
      · exact hv hc
    split at h
    · exact absurd h (by simp)
    · rename_i m hm
      simp only [Option.some.injEq, Prod.mk.injEq] at h
      obtain ⟨rfl, rfl, rfl⟩ := h
      exact ⟨stoi_nonneg _ _ hw hm, hw, fun hc => hs (hrest _ hc)⟩

/-- C18, amended: for every content of the configuration file in which no
minus sign occurs, and for a file that cannot be opened, the obstacle,
slowdown and speedup counts that `Config::ReadConfig` returns, and that
`getObstacles`, `getSlowdowns`, `getSpeedups` expose, are `>= 0`. -/
theorem C18_readConfig_nonneg (file : Option (List Char)) (l1 l2 l3 : Int)
    (hminus : ∀ stream, file = some stream → '-' ∉ stream)
    (hr : Config.ReadConfig file = some (l1, l2, l3)) :
    0 ≤ l1 ∧ 0 ≤ l2 ∧ 0 ≤ l3
      ∧ ∀ c, Config.construct file = some c →
          0 ≤ c.getObstacles ∧ 0 ≤ c.getSlowdowns ∧ 0 ≤ c.getSpeedups := by
  have key : 0 ≤ l1 ∧ 0 ≤ l2 ∧ 0 ≤ l3 := by
    cases file with
    | none =>
      simp only [Config.ReadConfig, Option.some.injEq, Prod.mk.injEq] at hr
      obtain ⟨rfl, rfl, rfl⟩ := hr
      exact ⟨le_refl 0, le_refl 0, le_refl 0⟩
    | some stream =>
      have hs := hminus stream rfl
      simp only [Config.ReadConfig] at hr
      split at hr
      · exact absurd hr (by simp)
      · rename_i a value1 stream1 h1
        split at hr
        · exact absurd hr (by simp)
        · rename_i b value2 stream2 h2
          split at hr
          · exact absurd hr (by simp)
          · rename_i c value3 stream3 h3
            simp only [Option.some.injEq, Prod.mk.injEq] at hr
            obtain ⟨rfl, rfl, rfl⟩ := hr
            obtain ⟨n1, v1, s1⟩ :=
              Config.readCount_nonneg 0 [] stream _ _ _ (le_refl 0) (by simp) hs h1
            obtain ⟨n2, v2, s2⟩ :=
              Config.readCount_nonneg 0 value1 stream1 _ _ _ (le_refl 0) v1 s1 h2
            obtain ⟨n3, _, _⟩ :=
              Config.readCount_nonneg 0 value2 stream2 _ _ _ (le_refl 0) v2 s2 h3
            exact ⟨n1, n2, n3⟩
  refine ⟨key.1, key.2.1, key.2.2, ?_⟩
  intro c hc
  simp only [Config.construct, hr, Option.some.injEq] at hc
  rw [← hc]
  exact key

/-- C18, amended, on `refFile`: the lines `4 x`, empty, `+7` hold no minus
sign and give the counts 4, 4 (the empty line leaves the word `4` in place)
and 7. -/
theorem C18_readConfig_nonneg_witness :
    Config.ReadConfig (some refFile) = some (4, 4, 7)
      ∧ ((0 : Int) ≤ 4 ∧ (0 : Int) ≤ 4 ∧ (0 : Int) ≤ 7
      ∧ ∀ c, Config.construct (some refFile) = some c →
          0 ≤ c.getObstacles ∧ 0 ≤ c.getSlowdowns ∧ 0 ≤ c.getSpeedups) :=
  ⟨by decide,
    C18_readConfig_nonneg (some refFile) 4 4 7
      (fun stream h => by
        simp only [Option.some.injEq] at h
        rw [← h]
        decide)
      (by decide)⟩

end SnakePP
